import Mathlib

/-!
# Dashboard client (`static/js/app.js`): formatter, schedule-list differ,
communication log and chat session

A shallow embedding of the browser script.  JavaScript strings are sequences of
UTF-16 code units, so a string is a `List Nat` of code units and `length`,
`substring`, `slice`, `trim` and the regular-expression replacements work on
code units exactly as in the source.  Module-level variables and the parts of
the document the script reads and writes become explicit state records; the
wall clock, the layout engine, the HTML parser and the network are inputs of
the functions that consult them.
-/

namespace Dashboard

/-! ## Strings -/

/-- A JavaScript string, as the sequence of its UTF-16 code units. -/
abbrev JSString := List Nat

/-- The UTF-16 encoding of one character: itself in the Basic Multilingual
Plane, a surrogate pair above it. -/
def utf16 (c : Char) : JSString :=
  if c.toNat < 65536 then [c.toNat]
  else [55296 + (c.toNat - 65536) / 1024, 56320 + (c.toNat - 65536) % 1024]

/-- The code units of a string literal of the source. -/
def js (s : String) : JSString := s.toList.flatMap utf16

/-- The characters matched by `\s` in a regular expression and stripped by
`String.prototype.trim`: ECMAScript WhiteSpace and LineTerminator. -/
def isWs (c : Nat) : Bool :=
  c == 9 || c == 10 || c == 11 || c == 12 || c == 13 || c == 32 || c == 160 ||
  c == 5760 || (8192 ≤ c && c ≤ 8202) || c == 8232 || c == 8233 || c == 8239 ||
  c == 8287 || c == 12288 || c == 65279

/-- `s.trim()`: white space removed from both ends. -/
def trim (s : JSString) : JSString := (s.dropWhile isWs).rdropWhile isWs

/-- JavaScript truthiness of a string value: every string but the empty one. -/
def truthy (s : JSString) : Bool := !s.isEmpty

/-- `a || b` on two optional string fields followed by a string default, as in
`x.a || x.b || 'dflt'`: the first truthy operand. -/
def orElse (a : Option JSString) (b : JSString) : JSString :=
  match a with
  | some s => if truthy s then s else b
  | none => b

/-! ## Formatter (`formatAgentResponse`) -/

/-- `t.replace(/\r/g, '')`. -/
def stripCR (t : JSString) : JSString := t.filter (fun c => c != 13)

/-- `t.replace(/\t/g, ' ')`. -/
def tabsToSpaces (t : JSString) : JSString := t.map (fun c => if c = 9 then 32 else c)

/-- The scan of `t.replace(/\n{3,}/g, '\n\n')`; `k` counts the line feeds of the
current run already copied (at most 2).  The greedy match takes a whole run of
three or more line feeds and writes two, runs of one or two are copied: in each
run the first two line feeds are kept. -/
def collapseNL : Nat → JSString → JSString
  | _, [] => []
  | k, c :: rest =>
    if c = 10 then
      if k < 2 then 10 :: collapseNL (k + 1) rest else collapseNL k rest
    else c :: collapseNL 0 rest

/-- `t.replace(/\n{3,}/g, '\n\n')`. -/
def collapseNewlines (t : JSString) : JSString := collapseNL 0 t

/-- Where the scan of `/\n-\s+/g` stands: looking for a match, on the hyphen of
a match that has begun, or inside the greedy `\s+` of a match. -/
inductive BulletMode
  | scan
  | hyphen
  | ws
  deriving DecidableEq, Repr

/-- The text after a line feed continues a match of `/\n-\s+/`: a hyphen and at
least one white-space character. -/
def startsMarker : JSString → Bool
  | c :: w :: _ => c == 45 && isWs w
  | _ => false

/-- The scan of `t.replace(/\n-\s+/g, '\n• ')`: matches are found left to
right, each takes the line feed, the hyphen and all the white space that
follows, and is replaced by a line feed, U+2022 and a space. -/
def bulletGo : BulletMode → JSString → JSString
  | _, [] => []
  | .hyphen, _ :: rest => bulletGo .ws rest
  | .ws, c :: rest => if isWs c then bulletGo .ws rest else c :: bulletGo .scan rest
  | .scan, c :: rest =>
    if c = 10 ∧ startsMarker rest then 10 :: 8226 :: 32 :: bulletGo .hyphen rest
    else c :: bulletGo .scan rest

/-- `t.replace(/\n-\s+/g, '\n• ')`. -/
def bullets (t : JSString) : JSString := bulletGo .scan t

/-- `if (/^[a-z]/.test(t)) t = t.charAt(0).toUpperCase() + t.slice(1)`. -/
def capitalizeFirst : JSString → JSString
  | [] => []
  | c :: rest => if 97 ≤ c ∧ c ≤ 122 then (c - 32) :: rest else c :: rest

/-- The value of `t` in `formatAgentResponse` right before the length check:
trimmed, white space normalised, hyphen lists turned into bullets, first letter
capitalised. -/
def normalise (text : JSString) : JSString :=
  capitalizeFirst (bullets (collapseNewlines (tabsToSpaces (stripCR (trim text)))))

/-- `if (t.length > 1500) t = t.slice(0, 1500) + '...'`. -/
def truncate (t : JSString) : JSString :=
  if t.length > 1500 then t.take 1500 ++ js "..." else t

/-- `formatAgentResponse(text)` on a string argument. -/
def formatAgentResponse (text : JSString) : JSString :=
  if text.isEmpty then [] else truncate (normalise text)

/-! ## `JSON.stringify` on the schedule fingerprint -/

/-- A lowercase hexadecimal digit. -/
def hexDigit (n : Nat) : Nat := if n < 10 then 48 + n else 87 + n

/-- ECMAScript `UnicodeEscape`: a backslash, `u` and four lowercase hex digits. -/
def unicodeEscape (c : Nat) : JSString :=
  [92, 117, hexDigit (c / 4096 % 16), hexDigit (c / 256 % 16), hexDigit (c / 16 % 16),
    hexDigit (c % 16)]

/-- A leading (high) surrogate code unit. -/
def isHighSurrogate (c : Nat) : Bool := 55296 ≤ c && c ≤ 56319

/-- A trailing (low) surrogate code unit. -/
def isLowSurrogate (c : Nat) : Bool := 56320 ≤ c && c ≤ 57343

/-- What `QuoteJSONString` writes for a code unit that is not part of a
surrogate pair: the short escapes, `\uXXXX` for the other control characters and
for lone surrogates, the unit itself otherwise. -/
def quoteUnit (c : Nat) : JSString :=
  if c = 8 then [92, 98]
  else if c = 9 then [92, 116]
  else if c = 10 then [92, 110]
  else if c = 12 then [92, 102]
  else if c = 13 then [92, 114]
  else if c = 34 then [92, 34]
  else if c = 92 then [92, 92]
  else if c < 32 ∨ isHighSurrogate c ∨ isLowSurrogate c then unicodeEscape c
  else [c]

/-- The inside of `QuoteJSONString(value)`: the string is read code point by
code point, a surrogate pair is copied and every other unit goes through
`quoteUnit`. -/
def quoteBody : JSString → JSString
  | [] => []
  | [c] => quoteUnit c
  | c :: d :: rest =>
    if isHighSurrogate c ∧ isLowSurrogate d then c :: d :: quoteBody rest
    else quoteUnit c ++ quoteBody (d :: rest)

/-- `QuoteJSONString(value)`. -/
def quoteJSON (s : JSString) : JSString := 34 :: (quoteBody s ++ [34])

/-- The value of a lowercase hexadecimal digit. -/
def hexVal (d : Nat) : Nat := if d < 58 then d - 48 else d - 87

/-- The code unit a short escape `\x` stands for. -/
def unescapeShort (x : Nat) : Nat :=
  if x = 98 then 8
  else if x = 116 then 9
  else if x = 110 then 10
  else if x = 102 then 12
  else if x = 114 then 13
  else x

/-- A reader for what `QuoteJSONString` writes after the opening quote: the
string up to the closing quote, escapes undone, and the text after that quote.
It is the inverse used to show that quoting loses nothing. -/
def readQuoted : JSString → Option (JSString × JSString)
  | [] => none
  | c :: r =>
    if c = 34 then some ([], r)
    else if c = 92 then
      match r with
      | [] => none
      | x :: r1 =>
        if x = 117 then
          match r1 with
          | h3 :: h2 :: h1 :: h0 :: r2 =>
            (readQuoted r2).map (fun p =>
              ((hexVal h3 * 4096 + hexVal h2 * 256 + hexVal h1 * 16 + hexVal h0) :: p.1, p.2))
          | _ => none
        else (readQuoted r1).map (fun p => (unescapeShort x :: p.1, p.2))
    else (readQuoted r).map (fun p => (c :: p.1, p.2))

/-- A schedule record as the server sends it: `id`, `content` and whatever other
fields it carries (name and serialised value). -/
structure ScheduleRecord where
  id : JSString
  content : JSString
  extra : List (JSString × JSString)
  deriving DecidableEq, Repr

/-- The object literal written for each record in the fingerprint,
`({ id: s.id, content: s.content })`. -/
def idContent (s : ScheduleRecord) : JSString × JSString := (s.id, s.content)

/-- `JSON.stringify` of an object whose own properties are `id` and `content`,
in that order, both strings. -/
def stringifyPair (p : JSString × JSString) : JSString :=
  js "\x7b\"id\":" ++ quoteJSON p.1 ++ js ",\"content\":" ++ quoteJSON p.2 ++ js "\x7d"

/-- The elements of an array joined with commas. -/
def joinComma : List JSString → JSString
  | [] => []
  | [x] => x
  | x :: y :: rest => x ++ 44 :: joinComma (y :: rest)

/-- `JSON.stringify` of an array of such objects. -/
def stringifyPairs (ps : List (JSString × JSString)) : JSString :=
  91 :: (joinComma (ps.map stringifyPair) ++ [93])

/-- The fingerprint of `updateScheduleList`:
`JSON.stringify(schedules.map(s => ({ id: s.id, content: s.content })))`. -/
def scheduleHash (schedules : List ScheduleRecord) : JSString :=
  stringifyPairs (schedules.map idContent)

/-! ## Schedule-list differ (`updateScheduleList`) -/

/-- A `div` created for one schedule and appended to the list. -/
structure ScheduleItem where
  className : JSString
  opacity : JSString
  transform : JSString
  innerHTML : JSString
  deriving DecidableEq, Repr

/-- A schedule list element: its scroll offset, the markup last assigned to its
`innerHTML`, the children appended since, and the number of writes the script
has made to it so far (every assignment to `innerHTML` or `scrollTop` and every
`appendChild` counts one). -/
structure ListElement where
  scrollTop : Nat
  html : JSString
  items : List ScheduleItem
  mutations : Nat
  deriving DecidableEq, Repr

/-- The part of the page `updateScheduleList` works on: the list elements by
id (`none` when `getElementById` finds nothing) and the own string-valued
properties of the module variable `previousScheduleData` (`none` for `null` or
a missing key). -/
structure Page where
  lists : JSString → Option ListElement
  previousScheduleData : JSString → Option JSString

/-- The string `previousScheduleData[listId]` evaluates to, if it is one.
`previousScheduleData` is an object literal, so the key `__proto__` reads the
accessor inherited from `Object.prototype`, whose value is an object and never
a string; the other inherited properties are functions until an own property
shadows them. -/
def storedHash (page : Page) (listId : JSString) : Option JSString :=
  if listId = js "__proto__" then none else page.previousScheduleData listId

/-- `previousScheduleData[listId] = scheduleHash`.  The assignment creates or
overwrites an own property, except under the key `__proto__`: there it calls
the setter inherited from `Object.prototype`, which ignores a string. -/
def storeHash (store : JSString → Option JSString) (listId hash : JSString) :
    JSString → Option JSString :=
  if listId = js "__proto__" then store else Function.update store listId (some hash)

/-- The markup shown for an empty collection. -/
def noSchedulesMarkup : JSString :=
  js "<p style=\"color: var(--text-light); font-size: 13px;\">No schedules stored</p>"

/-- The template literal assigned to `item.innerHTML`, with its three
interpolated values. -/
def itemMarkup (idPart contentPart marker : JSString) : JSString :=
  js "\n            <strong>ID:</strong> " ++ idPart ++ js "...<br>\n            " ++
    contentPart ++ marker ++ js "\n        "

/-- The body of the `forEach` callback up to `appendChild`: the item built for
one schedule. -/
def scheduleItem (schedule : ScheduleRecord) : ScheduleItem where
  className := js "schedule-item"
  opacity := js "1"
  transform := js "translateX(0)"
  innerHTML :=
    itemMarkup (schedule.id.take 8) (schedule.content.take 80)
      (if schedule.content.length > 80 then js "..." else [])

/-- `listElement.innerHTML = markup`: the children are replaced by what the
markup holds. -/
def setInnerHTML (el : ListElement) (markup : JSString) : ListElement :=
  { el with html := markup, items := [], mutations := el.mutations + 1 }

/-- `listElement.appendChild(item)`. -/
def appendItem (el : ListElement) (item : ScheduleItem) : ListElement :=
  { el with items := el.items ++ [item], mutations := el.mutations + 1 }

/-- `listElement.scrollTop = position`. -/
def setScrollTop (el : ListElement) (position : Nat) : ListElement :=
  { el with scrollTop := position, mutations := el.mutations + 1 }

/-- `updateScheduleList(listId, schedules)`.  `scrollHeight` is the layout
engine: the scroll height the element has with a given content. -/
def updateScheduleList (scrollHeight : ListElement → Nat) (listId : JSString)
    (schedules : List ScheduleRecord) (page : Page) : Page :=
  match page.lists listId with
  | none => page
  | some listElement =>
    let hash := scheduleHash schedules
    if storedHash page listId = some hash then page
    else
      let previous := storeHash page.previousScheduleData listId hash
      let wasScrolled := decide (listElement.scrollTop > 0)
      let scrollPosition := listElement.scrollTop
      let cleared := setInnerHTML listElement []
      if schedules.length = 0 then
        { lists := Function.update page.lists listId
            (some (setInnerHTML cleared noSchedulesMarkup)),
          previousScheduleData := previous }
      else
        let filled := (schedules.take 5).foldl (fun el s => appendItem el (scheduleItem s)) cleared
        let restored :=
          if wasScrolled ∧ scrollHeight filled > scrollPosition then
            setScrollTop filled scrollPosition
          else filled
        { lists := Function.update page.lists listId (some restored),
          previousScheduleData := previous }

/-! ## Elements, markup and selectors -/

/-- The HTML parser of the browser, as far as the selectors of the script
depend on it.  The script writes texts it has received into `innerHTML`
unescaped, so what a selector finds inside an element is decided by the parser:
`declares cls markup` says whether the content parsed from `markup` holds an
element of class `cls`; `strike cls markup` is the content left once the first
such element has been removed; `fill cls markup inner` is the content once
`inner` has been assigned to the `innerHTML` of the first such element. -/
structure Markup where
  declares : JSString → JSString → Bool
  strike : JSString → JSString → JSString
  fill : JSString → JSString → JSString → JSString

/-- A child of the log container or of the chat thread: its id (message ids are
drawn from a supply, `none` for an element without one), its class and its
content. -/
structure Element where
  id : Option Nat
  className : JSString
  innerHTML : JSString
  deriving DecidableEq, Repr

/-- ASCII white space, which separates the tokens of a `class` attribute. -/
def isAsciiWs (c : Nat) : Bool := c == 9 || c == 10 || c == 12 || c == 13 || c == 32

/-- The class list of an element with the given `className`. -/
def classTokens (className : JSString) : List JSString :=
  (className.splitOnP isAsciiWs).filter (fun t => !t.isEmpty)

/-- The element itself matches the selector `.cls`. -/
def hasClass (cls className : JSString) : Bool := (classTokens className).contains cls

/-- The selector `.cls` matches the element or something inside it. -/
def holdsMatch (html : Markup) (cls : JSString) (n : Element) : Bool :=
  hasClass cls n.className || html.declares cls n.innerHTML

/-- `container.querySelector('.cls')` is not `null`, for a container with the
given children. -/
def querySelectorFinds (html : Markup) (cls : JSString) (children : List Element) : Bool :=
  children.any (holdsMatch html cls)

/-- `container.querySelector('.cls').remove()`: the first match in document
order is removed, a child itself or an element inside a child. -/
def removeFirstMatch (html : Markup) (cls : JSString) : List Element → List Element
  | [] => []
  | n :: rest =>
    if hasClass cls n.className then rest
    else if html.declares cls n.innerHTML then
      { n with innerHTML := html.strike cls n.innerHTML } :: rest
    else n :: removeFirstMatch html cls rest

/-! ## Communication log (`addLogEntry`) -/

/-- A character matched by `\w`. -/
def isWordChar (c : Nat) : Bool :=
  (48 ≤ c && c ≤ 57) || (65 ≤ c && c ≤ 90) || c == 95 || (97 ≤ c && c ≤ 122)

/-- `l.toUpperCase()` on one character matched by `\w`. -/
def upperWordChar (c : Nat) : Nat := if 97 ≤ c ∧ c ≤ 122 then c - 32 else c

/-- `.replace(/\b\w/g, l => l.toUpperCase())`: a word character is replaced
when the character before it (`prev`) is not a word character. -/
def capitalizeWords : Bool → JSString → JSString
  | _, [] => []
  | prev, c :: rest =>
    (if !prev && isWordChar c then upperWordChar c else c) :: capitalizeWords (isWordChar c) rest

/-- The local `formatName` of `addLogEntry`. -/
def formatName (name : JSString) : JSString :=
  capitalizeWords false (name.map (fun c => if c = 95 then 32 else c))

/-- The local `displayMessage` of `addLogEntry`. -/
def displayMessage (message : JSString) : JSString :=
  if message.length > 300 then message.take 300 ++ js "..." else message

/-- The template literal assigned to `entry.innerHTML`, with its four
interpolated values. -/
def logMarkup (timestamp fromName toName message : JSString) : JSString :=
  js "\n        <div class=\"log-timestamp\">" ++ timestamp ++
    js "</div>\n        <div class=\"log-content\">\n            <span class=\"log-from\">" ++
    fromName ++
    js "</span>\n            <span class=\"log-arrow\">→</span>\n            <span class=\"log-to\">" ++
    toName ++ js "</span>\n            <span class=\"log-message\">" ++ message ++
    js "</span>\n        </div>\n    "

/-- The loop `while (children.length > 100) removeChild(lastChild)`: it runs
once for every child above 100. -/
def evictOldest (children : List Element) : List Element :=
  (List.dropLast^[children.length - 100]) children

/-- `addLogEntry(from, to, message, type)` on the children of
`#communication-log`, first child first (`none`: the container is missing).
`timestamp` is the clock reading formatted by `toLocaleTimeString`. -/
def addLogEntry (html : Markup) (timestamp fromName toName message type : JSString)
    (logContainer : Option (List Element)) : Option (List Element) :=
  match logContainer with
  | none => none
  | some children =>
    let entry : Element :=
      { id := none,
        className := js "log-entry log-" ++ type,
        innerHTML :=
          logMarkup timestamp (formatName fromName) (formatName toName) (displayMessage message) }
    let initialMessage := querySelectorFinds html (js "log-info") children
    let kept :=
      if initialMessage ∧ children.length = 1 then removeFirstMatch html (js "log-info") children
      else children
    some (evictOldest (entry :: kept))

/-! ## Chat session (`sendQuery`) -/

/-- An entry of `conversationHistory`. -/
structure ConversationMessage where
  role : JSString
  content : JSString
  type : JSString
  timestamp : Nat
  deriving DecidableEq, Repr

/-- One reading of the wall clock: `new Date()` and its two
`toLocaleTimeString` renderings. -/
structure Clock where
  now : Nat
  hourMinute : JSString
  hourMinuteSecond : JSString
  deriving DecidableEq, Repr

/-- The state the chat session works on: the module variable
`conversationHistory`, the children of `#chat-messages`, the children of
`#communication-log`, the two inputs, the send button, and the supply of
message ids (`msg-<time>-<random>` in the source, taken to be fresh, so that no
text written into the page carries one). -/
structure Session where
  conversationHistory : List ConversationMessage
  chat : List Element
  log : Option (List Element)
  queryValue : JSString
  queryType : JSString
  inputHeight : JSString
  sendDisabled : Bool
  sendOpacity : JSString
  nextId : Nat
  deriving DecidableEq, Repr

/-- `message.replace(/\n/g, '<br>')`. -/
def nlToBr (message : JSString) : JSString :=
  message.flatMap (fun c => if c = 10 then js "<br>" else [c])

/-- The text of the message id with the given number. -/
def messageIdText (messageId : Nat) : JSString := js "msg-" ++ js (toString messageId)

/-- The template literal assigned to `messageDiv.innerHTML`, with its five
interpolated values. -/
def chatMarkup (avatar senderName timestamp text followups : JSString) : JSString :=
  js "\n        <div class=\"message-avatar\">" ++ avatar ++
    js "</div>\n        <div class=\"message-content\">\n            <div class=\"message-header\">\n                <span class=\"message-sender\">" ++
    senderName ++ js "</span>\n                <span class=\"message-time\">" ++ timestamp ++
    js "</span>\n            </div>\n            <div class=\"message-text\">" ++ text ++
    js "</div>\n            " ++ followups ++ js "\n        </div>\n    "

/-- The content of the message `addMessageToChat` builds for a sender: avatar
and name chosen by the sender, the clock reading, the text, and for the agent
the empty `followups` container. -/
def messageMarkup (clock : Clock) (sender : JSString) (messageId : Nat) (text : JSString) :
    JSString :=
  chatMarkup
    (if sender = js "user" then js "👤" else if sender = js "agent" then js "🤖" else js "🔧")
    (if sender = js "user" then js "You"
      else if sender = js "agent" then js "Orchestrator" else js "System")
    clock.hourMinute text
    (if sender = js "agent" then
      js "<div class=\"followups\" id=\"followups-" ++ messageIdText messageId ++
        js "\"></div>"
    else [])

/-- `addMessageToChat(sender, message, queryType, isLoading)`: the new state
and the id of the message. -/
def addMessageToChat (html : Markup) (clock : Clock) (sender message : JSString)
    (_queryType : JSString) (isLoading : Bool) (st : Session) : Session × Nat :=
  let messageId := st.nextId
  let messageDiv : Element :=
    { id := some messageId,
      className := js "chat-message chat-" ++ sender,
      innerHTML :=
        messageMarkup clock sender messageId
          (if isLoading then js "<em>" ++ message ++ js "</em>" else nlToBr message) }
  let appended := st.chat ++ [messageDiv]
  let systemMsg := querySelectorFinds html (js "chat-system") appended
  let chat :=
    if systemMsg ∧ sender ≠ js "system" then removeFirstMatch html (js "chat-system") appended
    else appended
  ({ st with chat := chat, nextId := st.nextId + 1 }, messageId)

/-- The fallback suggestions of `renderDynamicFollowUps`. -/
def defaultSuggestions : List JSString :=
  [js "Find common free time this week", js "Show detailed schedule for tomorrow",
    js "Compare both users' availability"]

/-- The chip written for one suggestion. -/
def followupChip (s : JSString) : JSString :=
  let escaped :=
    (s.flatMap (fun c => if c = 39 then [92, 39] else [c])).flatMap
      (fun c => if c = 34 then js "&quot;" else [c])
  js "<button class=\"followup-chip\" onclick=\"quickAsk('" ++ escaped ++
    js "')\" title=\"Click to ask: " ++ escaped ++ js "\">" ++ s ++ js "</button>"

/-- In the first message with id `messageId`, assign `chips` to the `innerHTML`
of the first element of class `followups` inside it, when there is one. -/
def setFollowups (html : Markup) (messageId : Nat) (chips : JSString) :
    List Element → List Element
  | [] => []
  | n :: rest =>
    if n.id = some messageId then
      (if html.declares (js "followups") n.innerHTML then
        { n with innerHTML := html.fill (js "followups") n.innerHTML chips }
      else n) :: rest
    else n :: setFollowups html messageId chips rest

/-- `renderDynamicFollowUps(messageId, suggestions)` on an array of strings. -/
def renderDynamicFollowUps (html : Markup) (messageId : Nat) (suggestions : List JSString)
    (st : Session) : Session :=
  let shown := if suggestions.length = 0 then defaultSuggestions else suggestions
  { st with
    chat := setFollowups html messageId (((shown.take 3).map followupChip).flatten) st.chat }

/-- The body of the `POST /api/query` request. -/
structure Request where
  query : JSString
  type : JSString
  conversation_history : List ConversationMessage
  deriving DecidableEq, Repr

/-- An entry of the `communication_log` of a response. -/
structure LogRecord where
  fromName : JSString
  toName : JSString
  message : JSString
  type : JSString
  deriving DecidableEq, Repr

/-- The `result` object of a response. -/
structure QueryResult where
  aggregated_response : Option JSString
  response : Option JSString
  deriving DecidableEq, Repr

/-- A response body of the shape the endpoint documents: an optional `error`
string, the communication log, the result and optional suggestions. -/
structure ResponseBody where
  error : Option JSString
  communication_log : List LogRecord
  result : QueryResult
  suggestions : Option (List JSString)
  deriving DecidableEq, Repr

/-- How the awaited request ends: `fetch` or `response.json()` rejects with an
error carrying `message`, or a body arrives. -/
inductive Outcome
  | failed (message : JSString)
  | body (result : ResponseBody)
  deriving DecidableEq, Repr

/-- The locals of `sendQuery` that are alive across the `await`. -/
structure Pending where
  queryType : JSString
  loadingId : Nat
  deriving DecidableEq, Repr

/-- `sendQuery` up to the `await`: `none` when the trimmed query is empty (the
function returns and nothing changes), else the state at the suspension, the
request sent and the pending locals. -/
def sendQueryStart (html : Markup) (clock : Clock) (st : Session) :
    Option (Session × Request × Pending) :=
  let query := trim st.queryValue
  let queryType := st.queryType
  if query.isEmpty then none
  else
    let st : Session := { st with queryValue := [], inputHeight := js "auto" }
    let st := (addMessageToChat html clock (js "user") query queryType false st).1
    let userMessage : ConversationMessage :=
      { role := js "user", content := query, type := queryType, timestamp := clock.now }
    let st : Session := { st with conversationHistory := st.conversationHistory ++ [userMessage] }
    let log :=
      addLogEntry html clock.hourMinuteSecond (js "user") (js "orchestrator") query (js "query")
        st.log
    let st : Session := { st with log := log }
    let loading := addMessageToChat html clock (js "agent") (js "Thinking...") queryType true st
    let st : Session := { loading.1 with sendDisabled := true, sendOpacity := js "0.6" }
    some (st,
      { query := query, type := queryType,
        conversation_history :=
          st.conversationHistory.drop (st.conversationHistory.length - 10) },
      { queryType := queryType, loadingId := loading.2 })

/-- Remove the first message with the given id (`getElementById` then
`remove`), if there is one. -/
def removeMessage (messageId : Nat) (chat : List Element) : List Element :=
  chat.eraseP (fun n => n.id == some messageId)

/-- The `catch` block of `sendQuery` for an error with the given message. -/
def sendQueryCatch (html : Markup) (clock : Clock) (pending : Pending) (message : JSString)
    (st : Session) : Session :=
  let st : Session := { st with chat := removeMessage pending.loadingId st.chat }
  let st :=
    (addMessageToChat html clock (js "agent") (js "Error: " ++ message) pending.queryType false
      st).1
  let log :=
    addLogEntry html clock.hourMinuteSecond (js "system") (js "user") (js "Error: " ++ message)
      (js "error") st.log
  { st with log := log }

/-- The `try` block of `sendQuery` after a body without a truthy `error` has
arrived. -/
def sendQueryTry (html : Markup) (clock : Clock) (pending : Pending) (result : ResponseBody)
    (st : Session) : Session :=
  let st : Session := { st with chat := removeMessage pending.loadingId st.chat }
  let log :=
    result.communication_log.foldl
      (fun log entry =>
        addLogEntry html clock.hourMinuteSecond entry.fromName entry.toName entry.message
          entry.type log)
      st.log
  let st : Session := { st with log := log }
  let rawResponse :=
    orElse result.result.aggregated_response
      (orElse result.result.response (js "No response"))
  let responseText := formatAgentResponse rawResponse
  let added := addMessageToChat html clock (js "agent") responseText pending.queryType false st
  let st := renderDynamicFollowUps html added.2 (result.suggestions.getD []) added.1
  let reply : ConversationMessage :=
    { role := js "assistant", content := responseText, type := pending.queryType,
      timestamp := clock.now }
  let st : Session := { st with conversationHistory := st.conversationHistory ++ [reply] }
  if st.conversationHistory.length > 20 then
    { st with
      conversationHistory := st.conversationHistory.drop (st.conversationHistory.length - 20) }
  else st

/-- `sendQuery` from the resumption after the `await` to its end, `finally`
block included. -/
def sendQueryFinish (html : Markup) (clock : Clock) (pending : Pending) (outcome : Outcome)
    (st : Session) : Session :=
  let st :=
    match outcome with
    | .failed message => sendQueryCatch html clock pending message st
    | .body result =>
      match result.error with
      | some e => if truthy e then sendQueryCatch html clock pending e st
                  else sendQueryTry html clock pending result st
      | none => sendQueryTry html clock pending result st
  { st with sendDisabled := false, sendOpacity := js "1" }

/-- One submission run to completion with nothing in between: the user's text
and query type are in the inputs, `sendQuery` runs to the `await`, the request
ends with `outcome`, and `sendQuery` runs to its end. -/
structure Submission where
  text : JSString
  type : JSString
  sentAt : Clock
  outcome : Outcome
  doneAt : Clock
  deriving DecidableEq, Repr

/-- `sendQuery()` on the given submission, start to finish. -/
def sendQuery (html : Markup) (sub : Submission) (st : Session) : Session :=
  match sendQueryStart html sub.sentAt
      { st with queryValue := sub.text, queryType := sub.type } with
  | none => { st with queryValue := sub.text, queryType := sub.type }
  | some (st1, _, pending) => sendQueryFinish html sub.doneAt pending sub.outcome st1

/-- A sequence of submissions, each completed before the next begins. -/
def sendQueries (html : Markup) (subs : List Submission) (st : Session) : Session :=
  subs.foldl (fun s sub => sendQuery html sub s) st

/-! ## Runs of the log and of the chat session -/

/-- The arguments of one call of `addLogEntry`, with the clock reading it
formats. -/
structure LogCall where
  timestamp : JSString
  fromName : JSString
  toName : JSString
  message : JSString
  type : JSString
  deriving DecidableEq, Repr

/-- The entry `addLogEntry` builds for a call. -/
def entryOf (call : LogCall) : Element :=
  { id := none,
    className := js "log-entry log-" ++ call.type,
    innerHTML :=
      logMarkup call.timestamp (formatName call.fromName) (formatName call.toName)
        (displayMessage call.message) }

/-- The calls of `addLogEntry` made one after the other. -/
def addLogEntries (html : Markup) (calls : List LogCall)
    (logContainer : Option (List Element)) : Option (List Element) :=
  calls.foldl
    (fun log call =>
      addLogEntry html call.timestamp call.fromName call.toName call.message call.type log)
    logContainer

/-- The placeholder `clearLog` writes, the same the log starts with. -/
def logPlaceholder : Element :=
  { id := none,
    className := js "log-entry log-info",
    innerHTML :=
      js "\n                <div class=\"log-timestamp\">System</div>\n                <div class=\"log-content\">\n                    <span class=\"log-from\">System</span>\n                    <span class=\"log-arrow\">→</span>\n                    <span class=\"log-to\">All</span>\n                    <span class=\"log-message\">Communication log cleared.</span>\n                </div>\n            " }

/-- The welcome message `clearChat` writes, the same the thread starts with. -/
def welcomeMessage : Element :=
  { id := none,
    className := js "chat-message chat-system",
    innerHTML :=
      js "\n                <div class=\"message-avatar\">🤖</div>\n                <div class=\"message-content\">\n                    <div class=\"message-header\">\n                        <span class=\"message-sender\">System</span>\n                        <span class=\"message-time\">Just now</span>\n                    </div>\n                    <div class=\"message-text\">Hello! I'm your Orchestrator Agent. I can help you query schedules, find common free time, and coordinate between different users. How can I assist you today?</div>\n                </div>\n            " }

/-- The message ids of the thread were all drawn from the id supply: each is
below the next id to be handed out. -/
def FreshIds (st : Session) : Prop :=
  ∀ n ∈ st.chat, ∀ i, n.id = some i → i < st.nextId

/-- Neither the element nor anything inside it matches the selector `.cls`. -/
def Quiet (html : Markup) (cls : JSString) (n : Element) : Prop :=
  hasClass cls n.className = false ∧ html.declares cls n.innerHTML = false

/-- The user message `sendQuery` pushes on the history for a submission. -/
def userMessage (sub : Submission) : ConversationMessage :=
  ⟨js "user", trim sub.text, sub.type, sub.sentAt.now⟩

/-- The assistant message `sendQuery` pushes on the history for the body of a
successful response. -/
def assistantMessage (sub : Submission) (result : ResponseBody) : ConversationMessage :=
  ⟨js "assistant",
    formatAgentResponse
      (orElse result.result.aggregated_response
        (orElse result.result.response (js "No response"))),
    sub.type, sub.doneAt.now⟩

/-- The test `if (result.error)` of `sendQuery` on a body. -/
def reportsError (result : ResponseBody) : Bool :=
  match result.error with
  | some e => truthy e
  | none => false

/-! ## Sample inputs -/

/-- A page holding the two schedule lists, both empty and never rendered. -/
def samplePage : Page where
  lists := fun listId =>
    if listId = js "agent1-list" ∨ listId = js "agent2-list" then some ⟨0, [], [], 0⟩ else none
  previousScheduleData := fun _ => none

/-- A page holding a list element whose id is `__proto__`. -/
def protoPage : Page where
  lists := fun listId => if listId = js "__proto__" then some ⟨0, [], [], 0⟩ else none
  previousScheduleData := fun _ => none

/-- A layout engine under which nothing ever scrolls. -/
def flatHeight : ListElement → Nat := fun _ => 0

/-- The record `{id: "abc12345-xxxx", content: "A".repeat(90)}`. -/
def sampleRecord : ScheduleRecord := ⟨js "abc12345-xxxx", List.replicate 90 65, []⟩

/-- The same record carrying one more field. -/
def sampleRecordOwned : ScheduleRecord :=
  ⟨js "abc12345-xxxx", List.replicate 90 65, [(js "owner", js "\"ann\"")]⟩

/-- The record `{id: "abc12345-xxxx", content: "hello"}`. -/
def helloRecord : ScheduleRecord := ⟨js "abc12345-xxxx", js "hello", []⟩

/-- `p` is written at the start of `m`. -/
def startsWith : JSString → JSString → Bool
  | [], _ => true
  | _ :: _, [] => false
  | a :: p, b :: m => a == b && startsWith p m

/-- `p` is written somewhere in `m`. -/
def occursIn (p : JSString) : JSString → Bool
  | [] => p.isEmpty
  | c :: m => startsWith p (c :: m) || occursIn p m

/-- The text before the first place where `p` is written (all of it when `p`
is not written). -/
def textBefore (p : JSString) : JSString → JSString
  | [] => []
  | c :: m => if startsWith p (c :: m) then [] else c :: textBefore p m

/-- The text after the first place where `p` is written (none when `p` is not
written). -/
def textAfter (p : JSString) : JSString → JSString
  | [] => []
  | c :: m => if startsWith p (c :: m) then (c :: m).drop p.length else textAfter p m

/-- A reader of plainly written markup, for the sample runs: a class is
declared where its name is written; the element holding it runs from the `<`
before the name to the end of the next closing tag; its content starts after
the `>` of its opening tag. -/
def plainMarkup : Markup where
  declares := fun cls m => occursIn cls m
  strike := fun cls m =>
    ((textBefore cls m).reverse.dropWhile (fun c => c != 60)).tail.reverse ++
      textAfter [62] (textAfter (js "</") (textAfter cls m))
  fill := fun cls m inner =>
    textBefore cls m ++ cls ++ textBefore [62] (textAfter cls m) ++ [62] ++ inner ++
      textAfter [62] (textAfter cls m)

/-- A clock reading. -/
def sampleClock : Clock := ⟨0, js "09:30", js "09:30:00"⟩

/-- A session with an empty thread and an empty log, the user having typed
` hi `. -/
def sampleSession : Session :=
  { conversationHistory := [], chat := [], log := some [], queryValue := js " hi ",
    queryType := js "general", inputHeight := [], sendDisabled := false, sendOpacity := js "1",
    nextId := 0 }

/-- A session right after page load, the thread holding the welcome message and
the log its placeholder, the user having typed ` hi `. -/
def loadedSession : Session :=
  { conversationHistory := [], chat := [welcomeMessage], log := some [logPlaceholder],
    queryValue := js " hi ", queryType := js "general", inputHeight := [],
    sendDisabled := false, sendOpacity := js "1", nextId := 0 }

/-- A response body reporting the error `e` and nothing else. -/
def errorBody (e : JSString) : ResponseBody := ⟨some e, [], ⟨none, none⟩, none⟩

/-- A response body with an empty `error` string next to a regular answer. -/
def emptyErrorBody : ResponseBody := ⟨some [], [], ⟨none, some (js "ok")⟩, none⟩

/-- The submission of ` hi ` answered by a body with the response `ok` and no
`error`. -/
def answeredSubmission : Submission :=
  ⟨js " hi ", js "general", sampleClock, .body ⟨none, [], ⟨none, some (js "ok")⟩, none⟩,
    sampleClock⟩

/-- The submission of ` hi ` answered by `{error: "boom"}`. -/
def failingSubmission : Submission :=
  ⟨js " hi ", js "general", sampleClock, .body (errorBody (js "boom")), sampleClock⟩

/-- The submission of ` hi ` answered by an error whose text is markup of class
`chat-system`. -/
def markupSubmission : Submission :=
  ⟨js " hi ", js "general", sampleClock,
    .body (errorBody (js "<i class=\"chat-system\">boom</i>")), sampleClock⟩

set_option maxRecDepth 100000

/-! ## Schedule-list differ: lemmas -/

theorem scheduleHash_congr (s s' : List ScheduleRecord)
    (h : s.map idContent = s'.map idContent) : scheduleHash s = scheduleHash s' := by
  unfold scheduleHash
  rw [h]

theorem storedHash_storeHash (page : Page) (lists : JSString → Option ListElement)
    (listId hash : JSString) (hid : listId ≠ js "__proto__") :
    storedHash ⟨lists, storeHash page.previousScheduleData listId hash⟩ listId = some hash := by
  simp [storedHash, storeHash, hid]

theorem updateScheduleList_stored (scrollHeight : ListElement → Nat) (listId : JSString)
    (s : List ScheduleRecord) (page : Page) (el : ListElement)
    (hid : listId ≠ js "__proto__") (hel : page.lists listId = some el) :
    storedHash (updateScheduleList scrollHeight listId s page) listId =
      some (scheduleHash s) := by
  unfold updateScheduleList
  simp only [hel]
  by_cases h : storedHash page listId = some (scheduleHash s)
  · simp [h]
  · simp only [h, if_false]
    split
    · exact storedHash_storeHash page _ listId _ hid
    · exact storedHash_storeHash page _ listId _ hid

theorem updateScheduleList_exists (scrollHeight : ListElement → Nat) (listId : JSString)
    (s : List ScheduleRecord) (page : Page) :
    ((updateScheduleList scrollHeight listId s page).lists listId).isSome =
      (page.lists listId).isSome := by
  unfold updateScheduleList
  cases hel : page.lists listId with
  | none => simp [hel]
  | some el =>
    simp only []
    by_cases h : storedHash page listId = some (scheduleHash s)
    · simp [h, hel]
    · simp only [h, if_false]
      split <;> simp

theorem foldl_appendItem (rs : List ScheduleRecord) (el : ListElement) :
    rs.foldl (fun el s => appendItem el (scheduleItem s)) el =
      { el with
        items := el.items ++ rs.map scheduleItem, mutations := el.mutations + rs.length } := by
  induction rs generalizing el with
  | nil => simp
  | cons r rs ih =>
    rw [List.foldl_cons, ih]
    simp [appendItem, Nat.add_assoc, Nat.add_comm 1]

theorem scheduleItem_innerHTML (r : ScheduleRecord) :
    (scheduleItem r).innerHTML =
      js "\n            <strong>ID:</strong> " ++ (r.id.take 8 ++ js "...") ++
        js "<br>\n            " ++
        (r.content.take 80 ++ if r.content.length > 80 then js "..." else []) ++
        js "\n        " := by
  have h : js "...<br>\n            " = js "..." ++ js "<br>\n            " := by decide
  simp only [scheduleItem, itemMarkup, h, List.append_assoc]

/-- Under every key but `__proto__`: when two collections carry the same
ordered sequence of `(id, content)` pairs, `updateScheduleList(listId, s')`
right after `updateScheduleList(listId, s)` changes nothing.  The page after the
second call (every list element with its content, its scroll offset and the
count of writes made to it, and `previousScheduleData`) is the page the first
call left. -/
theorem updateScheduleList_same_pairs_noop (scrollHeight scrollHeight' : ListElement → Nat)
    (listId : JSString) (s s' : List ScheduleRecord) (page : Page)
    (hid : listId ≠ js "__proto__")
    (hsame : s.map (fun r => (r.id, r.content)) = s'.map (fun r => (r.id, r.content))) :
    updateScheduleList scrollHeight' listId s' (updateScheduleList scrollHeight listId s page) =
      updateScheduleList scrollHeight listId s page := by
  have hsame' : s.map idContent = s'.map idContent := hsame
  cases hel : page.lists listId with
  | none =>
    have h1 : updateScheduleList scrollHeight listId s page = page := by
      unfold updateScheduleList; simp [hel]
    rw [h1]
    unfold updateScheduleList; simp [hel]
  | some el =>
    have hst := updateScheduleList_stored scrollHeight listId s page el hid hel
    have hex := updateScheduleList_exists scrollHeight listId s page
    rw [hel] at hex
    generalize updateScheduleList scrollHeight listId s page = p1 at hst hex ⊢
    cases h1 : p1.lists listId with
    | none => simp [h1] at hex
    | some el1 =>
      unfold updateScheduleList
      simp [h1, hst, scheduleHash_congr s s' hsame']

/-- A call that finds the list element and a fingerprint other than the stored
one writes to the element: its count of writes grows. -/
theorem updateScheduleList_writes (scrollHeight : ListElement → Nat) (listId : JSString)
    (schedules : List ScheduleRecord) (page : Page) (listElement : ListElement)
    (hel : page.lists listId = some listElement)
    (hdiff : storedHash page listId ≠ some (scheduleHash schedules)) :
    ∃ shown : ListElement,
      (updateScheduleList scrollHeight listId schedules page).lists listId = some shown ∧
      listElement.mutations < shown.mutations := by
  unfold updateScheduleList
  simp only [hel, hdiff, if_false]
  by_cases h0 : schedules.length = 0
  · simp only [h0, if_true, Function.update_same, Option.some.injEq, exists_eq_left',
      setInnerHTML]
    omega
  · simp only [h0, if_false, foldl_appendItem]
    split
    · simp only [Function.update_same, Option.some.injEq, exists_eq_left', setInnerHTML,
        setScrollTop]
      omega
    · simp only [Function.update_same, Option.some.injEq, exists_eq_left', setInnerHTML]
      omega

/-- C2, the code at a failing input: the page holds a list element whose id is
`__proto__` and `updateScheduleList('__proto__', [{id: 'abc12345-xxxx',
content: 'hello'}])` is called twice.  The assignment of the fingerprint is
dropped under that key, so after the first call nothing is stored, and the
second call clears and renders the list again: the element has been written
2 times after the first call and 4 times after the second. -/
theorem updateScheduleList_proto_rerenders :
    storedHash (updateScheduleList flatHeight (js "__proto__") [helloRecord] protoPage)
        (js "__proto__") = none ∧
    ((updateScheduleList flatHeight (js "__proto__") [helloRecord] protoPage).lists
        (js "__proto__")).map (fun el => el.mutations) = some 2 ∧
    ((updateScheduleList flatHeight (js "__proto__") [helloRecord]
        (updateScheduleList flatHeight (js "__proto__") [helloRecord] protoPage)).lists
        (js "__proto__")).map (fun el => el.mutations) = some 4 := by
  decide

/-- C3: when the list element exists and the fingerprint of the collection
differs from the stored one, `updateScheduleList` leaves in the list exactly
`min(n, 5)` items, item `i` built from record `i`: the first 8 units of its id
followed by `...`, and the first 80 units of its content followed by `...`
exactly when the content is longer than 80.  For `n = 0` the list holds the
"No schedules stored" paragraph and no item; otherwise no markup besides the
items. -/
theorem updateScheduleList_renders (scrollHeight : ListElement → Nat) (listId : JSString)
    (schedules : List ScheduleRecord) (page : Page) (listElement : ListElement)
    (hel : page.lists listId = some listElement)
    (hdiff : storedHash page listId ≠ some (scheduleHash schedules)) :
    ∃ shown : ListElement,
      (updateScheduleList scrollHeight listId schedules page).lists listId = some shown ∧
      shown.items.length = min schedules.length 5 ∧
      (∀ i, i < min schedules.length 5 →
        ∃ r item, schedules[i]? = some r ∧ shown.items[i]? = some item ∧
          item.innerHTML =
            js "\n            <strong>ID:</strong> " ++ (r.id.take 8 ++ js "...") ++
              js "<br>\n            " ++
              (r.content.take 80 ++ if r.content.length > 80 then js "..." else []) ++
              js "\n        ") ∧
      (schedules.length = 0 →
        shown.html =
          js "<p style=\"color: var(--text-light); font-size: 13px;\">No schedules stored</p>" ∧
        shown.items = []) ∧
      (schedules.length ≠ 0 → shown.html = []) := by
  have key : ∃ shown : ListElement,
      (updateScheduleList scrollHeight listId schedules page).lists listId = some shown ∧
      shown.items = (schedules.take 5).map scheduleItem ∧
      (schedules.length = 0 →
        shown.html =
          js "<p style=\"color: var(--text-light); font-size: 13px;\">No schedules stored</p>") ∧
      (schedules.length ≠ 0 → shown.html = []) := by
    unfold updateScheduleList
    simp only [hel, hdiff, if_false]
    by_cases h0 : schedules.length = 0
    · have : schedules = [] := List.length_eq_zero.mp h0
      subst this
      simp [setInnerHTML, noSchedulesMarkup]
    · simp only [h0, if_false, foldl_appendItem]
      split <;> simp [setInnerHTML, setScrollTop]
  obtain ⟨shown, h1, h2, h3, h4⟩ := key
  refine ⟨shown, h1, ?_, ?_, ?_, h4⟩
  · simp [h2, min_comm]
  · intro i hi
    have hi' : i < schedules.length := lt_of_lt_of_le hi (min_le_left _ _)
    have hi5 : i < 5 := lt_of_lt_of_le hi (min_le_right _ _)
    refine ⟨schedules[i], scheduleItem schedules[i], ?_, ?_, scheduleItem_innerHTML _⟩
    · simp [hi']
    · rw [h2]
      simp [List.getElem?_take, hi5, hi']
  · intro h0
    refine ⟨h3 h0, ?_⟩
    rw [h2, List.length_eq_zero.mp h0]
    rfl

/-- The rendering scenario: one record with id `abc12345-xxxx` and a content of
90 `A` renders one item showing `abc12345...` and 80 `A` followed by `...`. -/
theorem updateScheduleList_scenario :
    ((updateScheduleList flatHeight (js "agent1-list") [sampleRecord] samplePage).lists
        (js "agent1-list")).map (fun el => (el.html, el.items.map (fun i => i.innerHTML))) =
      some ([], [js "\n            <strong>ID:</strong> abc12345...<br>\n            " ++
        List.replicate 80 65 ++ js "...\n        "]) := by
  decide

/-- The empty collection on the `agent1-list` of the sample page renders the
placeholder paragraph and no item. -/
theorem updateScheduleList_empty_scenario :
    ((updateScheduleList flatHeight (js "agent1-list") [] samplePage).lists
        (js "agent1-list")).map (fun el => (el.html, el.items)) =
      some (js "<p style=\"color: var(--text-light); font-size: 13px;\">No schedules stored</p>",
        []) := by
  decide

theorem updateScheduleList_renders_witness :
    samplePage.lists (js "agent1-list") = some ⟨0, [], [], 0⟩ ∧
    storedHash samplePage (js "agent1-list") ≠ some (scheduleHash [sampleRecord]) ∧
    ∃ shown : ListElement,
      (updateScheduleList flatHeight (js "agent1-list") [sampleRecord] samplePage).lists
        (js "agent1-list") = some shown ∧
      shown.items.length = min [sampleRecord].length 5 ∧
      (∀ i, i < min [sampleRecord].length 5 →
        ∃ r item, [sampleRecord][i]? = some r ∧ shown.items[i]? = some item ∧
          item.innerHTML =
            js "\n            <strong>ID:</strong> " ++ (r.id.take 8 ++ js "...") ++
              js "<br>\n            " ++
              (r.content.take 80 ++ if r.content.length > 80 then js "..." else []) ++
              js "\n        ") ∧
      ([sampleRecord].length = 0 →
        shown.html =
          js "<p style=\"color: var(--text-light); font-size: 13px;\">No schedules stored</p>" ∧
        shown.items = []) ∧
      ([sampleRecord].length ≠ 0 → shown.html = []) :=
  ⟨by decide, by decide,
    updateScheduleList_renders flatHeight (js "agent1-list") [sampleRecord] samplePage
      ⟨0, [], [], 0⟩ (by decide) (by decide)⟩

/-! ## Formatter: truncation -/

theorem trim_replicate_space (n : Nat) : trim (List.replicate n 32) = [] := by
  have h : (List.replicate n 32).dropWhile isWs = [] := by
    rw [List.dropWhile_eq_nil_iff]
    intro c hc
    rw [List.eq_of_mem_replicate hc]
    decide
  simp [trim, h]

theorem formatAgentResponse_replicate_space (n : Nat) :
    formatAgentResponse (List.replicate n 32) = [] := by
  unfold formatAgentResponse
  split
  · rfl
  · simp [normalise, trim_replicate_space, stripCR, tabsToSpaces, collapseNewlines, collapseNL,
      bullets, bulletGo, capitalizeFirst, truncate]

theorem collapseNL_replicate_A (k n : Nat) :
    collapseNL k (List.replicate n 65) = List.replicate n 65 := by
  induction n generalizing k with
  | zero => rfl
  | succ n ih => simp [List.replicate_succ, collapseNL, ih]

theorem bulletGo_replicate_A (n : Nat) :
    bulletGo .scan (List.replicate n 65) = List.replicate n 65 := by
  induction n with
  | zero => rfl
  | succ n ih => simp [List.replicate_succ, bulletGo, ih]

theorem trim_replicate_A (n : Nat) : trim (List.replicate n 65) = List.replicate n 65 := by
  have h : (List.replicate n 65).dropWhile isWs = List.replicate n 65 := by
    cases n with
    | zero => rfl
    | succ n => simp [List.replicate_succ, List.dropWhile, show isWs 65 = false by decide]
  unfold trim
  rw [h, List.rdropWhile_eq_self_iff]
  intro hl
  have := List.eq_of_mem_replicate (List.getLast_mem hl)
  rw [this]
  decide

theorem normalise_replicate_A (n : Nat) :
    normalise (List.replicate n 65) = List.replicate n 65 := by
  have h1 : stripCR (List.replicate n 65) = List.replicate n 65 := by
    unfold stripCR
    rw [List.filter_eq_self]
    intro c hc
    rw [List.eq_of_mem_replicate hc]
    decide
  have h2 : tabsToSpaces (List.replicate n 65) = List.replicate n 65 := by
    simp [tabsToSpaces]
  have h3 : capitalizeFirst (List.replicate n 65) = List.replicate n 65 := by
    cases n with
    | zero => rfl
    | succ n => simp [List.replicate_succ, capitalizeFirst]
  simp only [normalise, trim_replicate_A, h1, h2, collapseNewlines, collapseNL_replicate_A,
    bullets, bulletGo_replicate_A, h3]

/-- C9, as stated, fails: an input of 2000 spaces is 2000 characters long and
is formatted to the empty string, not to 1503 characters. -/
theorem formatAgentResponse_blank_2000 :
    (List.replicate 2000 32).length = 2000 ∧
    (formatAgentResponse (List.replicate 2000 32)).length ≠ 1503 := by
  rw [formatAgentResponse_replicate_space]
  simp

/-- C9, amended: for an input of exactly 2000 characters whose normalised text
is longer than 1500 characters, `formatAgentResponse` returns the first 1500
characters of the normalised text followed by `...`, 1503 characters in all. -/
theorem formatAgentResponse_truncates (text : JSString)
    (hlen : text.length = 2000) (hlong : 1500 < (normalise text).length) :
    formatAgentResponse text = (normalise text).take 1500 ++ js "..." ∧
    (formatAgentResponse text).length = 1503 := by
  have hne : text.isEmpty = false := by
    cases text with
    | nil => simp at hlen
    | cons c rest => rfl
  have h : formatAgentResponse text = (normalise text).take 1500 ++ js "..." := by
    simp [formatAgentResponse, hne, truncate, hlong]
  refine ⟨h, ?_⟩
  rw [h, List.length_append, List.length_take]
  have : (js "...").length = 3 := by decide
  omega

theorem formatAgentResponse_truncates_witness :
    (List.replicate 2000 65).length = 2000 ∧
    1500 < (normalise (List.replicate 2000 65)).length ∧
    formatAgentResponse (List.replicate 2000 65) =
      (normalise (List.replicate 2000 65)).take 1500 ++ js "..." ∧
    (formatAgentResponse (List.replicate 2000 65)).length = 1503 :=
  ⟨by simp, by rw [normalise_replicate_A]; simp,
    formatAgentResponse_truncates _ (by simp) (by rw [normalise_replicate_A]; simp)⟩



/-! ## Chat session -/

theorem addMessageToChat_history (html : Markup) (clock : Clock)
    (sender message queryType : JSString) (isLoading : Bool) (st : Session) :
    (addMessageToChat html clock sender message queryType isLoading st).1.conversationHistory =
      st.conversationHistory := rfl

theorem sendQueryStart_history (html : Markup) (clock : Clock) (st : Session)
    (hq : trim st.queryValue ≠ []) :
    ∃ st1 pending,
      sendQueryStart html clock st =
        some (st1,
          { query := trim st.queryValue, type := st.queryType,
            conversation_history :=
              st1.conversationHistory.drop (st1.conversationHistory.length - 10) },
          pending) ∧
      st1.conversationHistory =
        st.conversationHistory ++ [⟨js "user", trim st.queryValue, st.queryType, clock.now⟩] := by
  have hq' : (trim st.queryValue).isEmpty = false := by
    cases h : trim st.queryValue with
    | nil => exact absurd h hq
    | cons c rest => rfl
  unfold sendQueryStart
  simp only [hq', Bool.false_eq_true, if_false]
  exact ⟨_, _, rfl, rfl⟩

/-- C7: for an accepted submission (the trimmed query is not empty) `sendQuery`
sends a request whose `conversation_history` is the last `min(10, k)` entries of
the history as it stands right after the user message was appended, `k` its
length then: at most 10 entries, a suffix of that history in the same order,
ending with the user message just submitted, whose content is the trimmed
query. -/
theorem sendQueryStart_context (html : Markup) (clock : Clock) (st : Session)
    (hq : trim st.queryValue ≠ []) :
    ∃ st1 request pending,
      sendQueryStart html clock st = some (st1, request, pending) ∧
      st1.conversationHistory =
        st.conversationHistory ++ [⟨js "user", trim st.queryValue, st.queryType, clock.now⟩] ∧
      request.conversation_history =
        st1.conversationHistory.drop
          (st1.conversationHistory.length - min 10 st1.conversationHistory.length) ∧
      request.conversation_history.length = min 10 st1.conversationHistory.length ∧
      request.conversation_history.length ≤ 10 ∧
      request.conversation_history <:+ st1.conversationHistory ∧
      request.conversation_history.getLast? =
        some ⟨js "user", trim st.queryValue, st.queryType, clock.now⟩ := by
  obtain ⟨st1, pending, hstart, hhist⟩ := sendQueryStart_history html clock st hq
  refine ⟨st1, _, pending, hstart, hhist, ?_, ?_, ?_, ?_, ?_⟩
  · simp only
    congr 1
    omega
  · simp only [List.length_drop]
    omega
  · simp only [List.length_drop]
    omega
  · exact List.drop_suffix _ _
  · simp only [hhist]
    rw [List.drop_append_of_le_length (by simp only [List.length_append, List.length_singleton]; omega)]
    simp

theorem sendQueryStart_context_witness :
    trim sampleSession.queryValue ≠ [] ∧
    ∃ st1 request pending,
      sendQueryStart plainMarkup sampleClock sampleSession = some (st1, request, pending) ∧
      st1.conversationHistory =
        sampleSession.conversationHistory ++
          [⟨js "user", trim sampleSession.queryValue, sampleSession.queryType,
            sampleClock.now⟩] ∧
      request.conversation_history =
        st1.conversationHistory.drop
          (st1.conversationHistory.length - min 10 st1.conversationHistory.length) ∧
      request.conversation_history.length = min 10 st1.conversationHistory.length ∧
      request.conversation_history.length ≤ 10 ∧
      request.conversation_history <:+ st1.conversationHistory ∧
      request.conversation_history.getLast? =
        some ⟨js "user", trim sampleSession.queryValue, sampleSession.queryType,
          sampleClock.now⟩ :=
  ⟨by decide, sendQueryStart_context plainMarkup sampleClock sampleSession (by decide)⟩

/-- C5, the code at a failing input: on an empty log an entry of kind `info`
followed by an entry of kind `query` leaves one entry, the second.  The first
one carries the class `log-info`, is taken for the initial placeholder and is
removed, whatever the parser makes of the markup. -/
theorem addLogEntry_info_entry_lost (html : Markup) :
    addLogEntry html (js "09:30:01") (js "agent1") (js "orchestrator") (js "second")
        (js "query")
        (addLogEntry html (js "09:30:00") (js "orchestrator") (js "agent1") (js "first")
          (js "info") (some [])) =
      some [⟨none, js "log-entry log-query",
        js "\n        <div class=\"log-timestamp\">09:30:01</div>\n        <div class=\"log-content\">\n            <span class=\"log-from\">Agent1</span>\n            <span class=\"log-arrow\">→</span>\n            <span class=\"log-to\">Orchestrator</span>\n            <span class=\"log-message\">second</span>\n        </div>\n    "⟩] := by
  rfl

/-- C6, as stated, fails: the body `{error: "", communication_log: [],
result: {response: "ok"}}` has a string in its `error` field, and after
`sendQuery` has handled it the conversation history is not the one the
submission left: the assistant entry was appended. -/
theorem sendQuery_empty_error_appends :
    emptyErrorBody.error = some [] ∧
    (sendQueryStart plainMarkup sampleClock sampleSession).map
        (fun r =>
          decide
            ((sendQueryFinish plainMarkup sampleClock r.2.2 (.body emptyErrorBody)
              r.1).conversationHistory = r.1.conversationHistory)) =
      some false := by
  decide



/-! ## The history under successes and failures -/

theorem sendQueryCatch_history (html : Markup) (clock : Clock) (pending : Pending)
    (message : JSString) (st : Session) :
    (sendQueryCatch html clock pending message st).conversationHistory =
      st.conversationHistory :=
  rfl

theorem sendQueryTry_history (html : Markup) (clock : Clock) (pending : Pending)
    (result : ResponseBody) (st : Session) :
    (sendQueryTry html clock pending result st).conversationHistory =
      (st.conversationHistory ++
        [(⟨js "assistant",
          formatAgentResponse
            (orElse result.result.aggregated_response
              (orElse result.result.response (js "No response"))),
          pending.queryType, clock.now⟩ : ConversationMessage)]).drop
        ((st.conversationHistory ++
          [(⟨js "assistant",
            formatAgentResponse
              (orElse result.result.aggregated_response
                (orElse result.result.response (js "No response"))),
            pending.queryType, clock.now⟩ : ConversationMessage)]).length - 20) := by
  unfold sendQueryTry
  simp only
  split
  · rfl
  · rename_i h
    have hzero : (st.conversationHistory ++
        [(⟨js "assistant",
          formatAgentResponse
            (orElse result.result.aggregated_response
              (orElse result.result.response (js "No response"))),
          pending.queryType, clock.now⟩ : ConversationMessage)]).length - 20 = 0 := by
      simp only [renderDynamicFollowUps, addMessageToChat] at h
      omega
    rw [hzero, List.drop_zero]
    rfl

/-- A submission that fails (the request is rejected, or the body carries a
truthy `error`) leaves the history one entry longer, the user message, with no
cap applied. -/
theorem sendQuery_failure_history (html : Markup) (sub : Submission) (st : Session)
    (hq : trim sub.text ≠ [])
    (hfail : (∃ m, sub.outcome = .failed m) ∨
      (∃ result, sub.outcome = .body result ∧ reportsError result = true)) :
    (sendQuery html sub st).conversationHistory =
      st.conversationHistory ++ [userMessage sub] := by
  obtain ⟨st1, pending, hstart, hhist⟩ :=
    sendQueryStart_history html sub.sentAt
      { st with queryValue := sub.text, queryType := sub.type } hq
  unfold sendQuery
  rw [hstart]
  simp only
  rcases hfail with ⟨m, hm⟩ | ⟨result, hres, herr⟩
  · rw [hm]
    simp only [sendQueryFinish, sendQueryCatch_history, hhist]
    rfl
  · rw [hres]
    unfold reportsError at herr
    cases he : result.error with
    | none => rw [he] at herr; simp at herr
    | some e =>
      rw [he] at herr
      have herr' : truthy e = true := herr
      simp only [sendQueryFinish, he, herr', if_true, sendQueryCatch_history, hhist]
      rfl

/-- A submission that succeeds leaves the last 20 entries of the history
extended by the user message and the assistant message. -/
theorem sendQuery_success_history (html : Markup) (sub : Submission) (st : Session)
    (result : ResponseBody)
    (hq : trim sub.text ≠ []) (hout : sub.outcome = .body result)
    (hok : reportsError result = false) :
    (sendQuery html sub st).conversationHistory =
      (st.conversationHistory ++ [userMessage sub, assistantMessage sub result]).drop
        ((st.conversationHistory ++ [userMessage sub, assistantMessage sub result]).length
          - 20) := by
  obtain ⟨st1, pending, hstart, hhist⟩ :=
    sendQueryStart_history html sub.sentAt
      { st with queryValue := sub.text, queryType := sub.type } hq
  have hpending : pending.queryType = sub.type := by
    have hempty : (trim sub.text).isEmpty = false := by
      cases h : trim sub.text with
      | nil => exact absurd h hq
      | cons c rest => rfl
    unfold sendQueryStart at hstart
    simp only [hempty, Bool.false_eq_true, if_false, Option.some.injEq, Prod.mk.injEq] at hstart
    rw [← hstart.2.2]
  have hfin :
      (sendQueryFinish html sub.doneAt pending (.body result) st1).conversationHistory =
        (sendQueryTry html sub.doneAt pending result st1).conversationHistory := by
    unfold reportsError at hok
    cases he : result.error with
    | none => simp only [sendQueryFinish, he]
    | some e =>
      rw [he] at hok
      have hok' : truthy e = false := hok
      simp only [sendQueryFinish, he, hok', Bool.false_eq_true, if_false]
  unfold sendQuery
  rw [hstart]
  simp only
  rw [hout, hfin, sendQueryTry_history, hhist, hpending]
  simp [userMessage, assistantMessage]

/-- After 25 submissions in a row that all succeed the history holds exactly
20 entries. -/
theorem sendQueries_successes_capped :
    (sendQueries plainMarkup (List.replicate 25 answeredSubmission)
      { sampleSession with queryValue := [] }).conversationHistory.length = 20 := by
  decide



theorem sendQueries_failures_length (html : Markup) (n : Nat) (st : Session) :
    (sendQueries html (List.replicate n failingSubmission) st).conversationHistory.length =
      st.conversationHistory.length + n := by
  induction n generalizing st with
  | zero => rfl
  | succ n ih =>
    have hstep := sendQuery_failure_history html failingSubmission st (by decide)
      (Or.inr ⟨errorBody (js "boom"), rfl, by decide⟩)
    unfold sendQueries at ih ⊢
    rw [List.replicate_succ, List.foldl_cons, ih, hstep, List.length_append,
      List.length_singleton]
    omega

/-- C1, the code at a failing input: after 21 accepted submissions in a row,
each answered by `{error: "boom"}`, the conversation history holds 21 entries,
whatever the parser makes of the markup.  The cap at 20 sits at the end of the
`try` block only. -/
theorem sendQueries_failures_exceed_cap (html : Markup) :
    (sendQueries html (List.replicate 21 failingSubmission)
      { sampleSession with queryValue := [] }).conversationHistory.length = 21 := by
  rw [sendQueries_failures_length]
  rfl


/-! ## Selectors on quiet elements -/

theorem iterate_dropLast {α : Type} (n : Nat) (l : List α) :
    (List.dropLast^[n]) l = l.take (l.length - n) := by
  induction n with
  | zero => simp
  | succ n ih =>
    rw [Function.iterate_succ_apply', ih, List.dropLast_eq_take, List.take_take,
      List.length_take]
    congr 1
    omega

theorem evictOldest_eq_take (l : List Element) : evictOldest l = l.take 100 := by
  unfold evictOldest
  rw [iterate_dropLast]
  by_cases h : l.length ≤ 100
  · rw [List.take_of_length_le h, Nat.sub_eq_zero_of_le h]
    simp
  · congr 1
    omega

theorem holdsMatch_quiet (html : Markup) (cls : JSString) (n : Element)
    (h : Quiet html cls n) : holdsMatch html cls n = false := by
  unfold holdsMatch
  rw [h.1, h.2]
  rfl

theorem querySelectorFinds_quiet (html : Markup) (cls : JSString) (l : List Element)
    (h : ∀ n ∈ l, Quiet html cls n) : querySelectorFinds html cls l = false := by
  unfold querySelectorFinds
  rw [List.any_eq_false]
  intro n hn
  simp [holdsMatch_quiet html cls n (h n hn)]

theorem removeFirstMatch_quiet (html : Markup) (cls : JSString) (l : List Element)
    (h : ∀ n ∈ l, Quiet html cls n) : removeFirstMatch html cls l = l := by
  induction l with
  | nil => rfl
  | cons n rest ih =>
    have hn := h n (List.mem_cons_self _ _)
    rw [removeFirstMatch, if_neg (by simp [hn.1]), if_neg (by simp [hn.2]),
      ih (fun m hm => h m (List.mem_cons_of_mem _ hm))]

theorem removeFirstMatch_not_found (html : Markup) (cls : JSString) (l : List Element)
    (h : querySelectorFinds html cls l = false) : removeFirstMatch html cls l = l := by
  apply removeFirstMatch_quiet
  intro n hn
  unfold querySelectorFinds at h
  rw [List.any_eq_false] at h
  have := h n hn
  unfold holdsMatch at this
  simp only [Bool.or_eq_true, not_or, Bool.not_eq_true] at this
  exact this

theorem removeFirstMatch_if_found (html : Markup) (cls : JSString) (l : List Element)
    (c : Prop) [Decidable c] (hc : c) :
    (if querySelectorFinds html cls l = true ∧ c then removeFirstMatch html cls l else l) =
      removeFirstMatch html cls l := by
  split
  · rfl
  · rename_i h
    rw [removeFirstMatch_not_found]
    by_contra hfound
    exact h ⟨by simpa using hfound, hc⟩

theorem removeFirstMatch_concat (html : Markup) (cls : JSString) (l : List Element)
    (n : Element) (hn : Quiet html cls n) :
    removeFirstMatch html cls (l ++ [n]) = removeFirstMatch html cls l ++ [n] := by
  induction l with
  | nil =>
    exact removeFirstMatch_quiet html cls [n] (by simpa using hn)
  | cons m rest ih =>
    rw [List.cons_append, removeFirstMatch, removeFirstMatch]
    split
    · rfl
    · split
      · rfl
      · rw [ih]
        rfl

/-- In a thread whose messages are quiet but for a welcome message at the head,
removing the first match leaves the quiet messages. -/
theorem removeFirstMatch_welcome (html : Markup) (cls : JSString) (l : List Element)
    (hhead : ∀ n, l.head? = some n → hasClass cls n.className = true ∨ Quiet html cls n)
    (htail : ∀ n ∈ l.tail, Quiet html cls n) :
    (∀ n ∈ removeFirstMatch html cls l, Quiet html cls n) ∧
    List.Sublist (removeFirstMatch html cls l) l := by
  cases l with
  | nil => exact ⟨by simp [removeFirstMatch], List.Sublist.refl _⟩
  | cons m rest =>
    rcases hhead m rfl with h | h
    · rw [removeFirstMatch, if_pos h]
      exact ⟨htail, List.sublist_cons_self _ _⟩
    · have hall : ∀ n ∈ m :: rest, Quiet html cls n := by
        intro n hn
        rcases List.mem_cons.mp hn with h1 | h1
        · rw [h1]; exact h
        · exact htail n h1
      rw [removeFirstMatch_quiet html cls _ hall]
      exact ⟨hall, List.Sublist.refl _⟩

theorem eraseP_append_last {α : Type} (p : α → Bool) (l : List α) (a : α)
    (hl : ∀ x ∈ l, p x = false) (ha : p a = true) : (l ++ [a]).eraseP p = l := by
  induction l with
  | nil => simp [List.eraseP, ha]
  | cons x t ih =>
    have hx : p x = false := hl x (List.mem_cons_self _ _)
    have ht : ∀ y ∈ t, p y = false := fun y hy => hl y (List.mem_cons_of_mem _ hy)
    simp [List.eraseP_cons, hx, ih ht]

/-! ## One call of `addMessageToChat` and of `addLogEntry` -/

theorem addMessageToChat_chat (html : Markup) (clock : Clock)
    (sender message queryType : JSString) (isLoading : Bool) (st : Session)
    (hs : sender ≠ js "system")
    (hcls : hasClass (js "chat-system") (js "chat-message chat-" ++ sender) = false)
    (hquiet : html.declares (js "chat-system")
      (messageMarkup clock sender st.nextId
        (if isLoading then js "<em>" ++ message ++ js "</em>" else nlToBr message)) = false) :
    (addMessageToChat html clock sender message queryType isLoading st).1.chat =
      removeFirstMatch html (js "chat-system") st.chat ++
        [{ id := some st.nextId,
           className := js "chat-message chat-" ++ sender,
           innerHTML :=
             messageMarkup clock sender st.nextId
               (if isLoading then js "<em>" ++ message ++ js "</em>" else nlToBr message) }] := by
  unfold addMessageToChat
  simp only
  rw [removeFirstMatch_if_found _ _ _ _ hs, removeFirstMatch_concat]
  exact ⟨hcls, hquiet⟩

theorem addLogEntry_head_kept (html : Markup)
    (timestamp fromName toName message type : JSString)
    (c : Element) (rest : List Element) (hc : Quiet html (js "log-info") c) :
    addLogEntry html timestamp fromName toName message type (some (c :: rest)) =
      some ((⟨none, js "log-entry log-" ++ type,
        logMarkup timestamp (formatName fromName) (formatName toName)
          (displayMessage message)⟩ :: c :: rest).take 100) := by
  unfold addLogEntry
  simp only [Option.some.injEq, evictOldest_eq_take]
  congr 2
  split
  · rename_i h
    obtain ⟨h1, h2⟩ := h
    have hr : rest = [] := by
      cases rest with
      | nil => rfl
      | cons a t => simp at h2
    subst hr
    rw [querySelectorFinds_quiet html _ [c] (by simpa using hc)] at h1
    simp at h1
  · rfl

theorem addLogEntry_some_head (html : Markup)
    (timestamp fromName toName message type : JSString) (children : List Element) :
    ∃ rest, addLogEntry html timestamp fromName toName message type (some children) =
      some (⟨none, js "log-entry log-" ++ type,
        logMarkup timestamp (formatName fromName) (formatName toName)
          (displayMessage message)⟩ :: rest) := by
  unfold addLogEntry
  simp only [evictOldest_eq_take]
  exact ⟨_, rfl⟩

theorem nlToBr_error (e : JSString) : nlToBr (js "Error: " ++ e) = js "Error: " ++ nlToBr e := by
  unfold nlToBr
  rw [List.flatMap_append]
  congr 1

/-! ## Chat session: an error reported in the response body -/

theorem agentMarkup_written (clock : Clock) (messageId : Nat) (text : JSString) :
    messageMarkup clock (js "agent") messageId text =
      js "\n        <div class=\"message-avatar\">🤖</div>\n        <div class=\"message-content\">\n            <div class=\"message-header\">\n                <span class=\"message-sender\">Orchestrator</span>\n                <span class=\"message-time\">" ++
        clock.hourMinute ++
        js "</span>\n            </div>\n            <div class=\"message-text\">" ++ text ++
        js "</div>\n            <div class=\"followups\" id=\"followups-msg-" ++
        js (toString messageId) ++ js "\"></div>\n        </div>\n    " := by
  have h1 :
      js "\n        <div class=\"message-avatar\">🤖</div>\n        <div class=\"message-content\">\n            <div class=\"message-header\">\n                <span class=\"message-sender\">Orchestrator</span>\n                <span class=\"message-time\">" =
        js "\n        <div class=\"message-avatar\">" ++ (js "🤖" ++
          (js "</div>\n        <div class=\"message-content\">\n            <div class=\"message-header\">\n                <span class=\"message-sender\">" ++
            (js "Orchestrator" ++ js "</span>\n                <span class=\"message-time\">"))) := by
    decide
  have h2 :
      js "</div>\n            <div class=\"followups\" id=\"followups-msg-" =
        js "</div>\n            " ++ (js "<div class=\"followups\" id=\"followups-" ++ js "msg-") := by
    decide
  have h3 :
      js "\"></div>\n        </div>\n    " = js "\"></div>" ++ js "\n        </div>\n    " := by
    decide
  unfold messageMarkup chatMarkup messageIdText
  rw [if_neg (by decide : ¬ js "agent" = js "user"), if_pos rfl,
    if_neg (by decide : ¬ js "agent" = js "user"), if_pos rfl, if_pos rfl, h1, h2, h3]
  simp only [List.append_assoc]

theorem errorLogMarkup_written (timestamp message : JSString) :
    logMarkup timestamp (formatName (js "system")) (formatName (js "user")) message =
      js "\n        <div class=\"log-timestamp\">" ++ timestamp ++
        js "</div>\n        <div class=\"log-content\">\n            <span class=\"log-from\">System</span>\n            <span class=\"log-arrow\">→</span>\n            <span class=\"log-to\">User</span>\n            <span class=\"log-message\">" ++
        message ++ js "</span>\n        </div>\n    " := by
  have h1 :
      js "</div>\n        <div class=\"log-content\">\n            <span class=\"log-from\">System</span>\n            <span class=\"log-arrow\">→</span>\n            <span class=\"log-to\">User</span>\n            <span class=\"log-message\">" =
        js "</div>\n        <div class=\"log-content\">\n            <span class=\"log-from\">" ++
          (formatName (js "system") ++
            (js "</span>\n            <span class=\"log-arrow\">→</span>\n            <span class=\"log-to\">" ++
              (formatName (js "user") ++ js "</span>\n            <span class=\"log-message\">"))) := by
    decide
  unfold logMarkup
  rw [h1]
  simp only [List.append_assoc]

theorem hasClass_user :
    hasClass (js "chat-system") (js "chat-message chat-" ++ js "user") = false := by
  decide

theorem hasClass_agent :
    hasClass (js "chat-system") (js "chat-message chat-" ++ js "agent") = false := by
  decide

theorem hasClass_query :
    hasClass (js "log-info") (js "log-entry log-" ++ js "query") = false := by
  decide

theorem thinking_text : js "<em>" ++ js "Thinking..." ++ js "</em>" = js "<em>Thinking...</em>" := by
  decide

theorem sendQueryStart_fields (html : Markup) (clock : Clock) (st : Session)
    (hq : trim st.queryValue ≠ [])
    (hquery : html.declares (js "chat-system")
      (messageMarkup clock (js "user") st.nextId (nlToBr (trim st.queryValue))) = false)
    (hthinking : html.declares (js "chat-system")
      (messageMarkup clock (js "agent") (st.nextId + 1) (js "<em>Thinking...</em>")) = false) :
    ∃ st1 request,
      sendQueryStart html clock st = some (st1, request, ⟨st.queryType, st.nextId + 1⟩) ∧
      st1.chat =
        removeFirstMatch html (js "chat-system")
            (removeFirstMatch html (js "chat-system") st.chat ++
              [(⟨some st.nextId, js "chat-message chat-user",
                messageMarkup clock (js "user") st.nextId (nlToBr (trim st.queryValue))⟩ :
                  Element)]) ++
          [(⟨some (st.nextId + 1), js "chat-message chat-agent",
            messageMarkup clock (js "agent") (st.nextId + 1) (js "<em>Thinking...</em>")⟩ :
              Element)] ∧
      st1.log =
        addLogEntry html clock.hourMinuteSecond (js "user") (js "orchestrator")
          (trim st.queryValue) (js "query") st.log ∧
      st1.nextId = st.nextId + 2 := by
  have hq' : (trim st.queryValue).isEmpty = false := by
    cases h : trim st.queryValue with
    | nil => exact absurd h hq
    | cons c rest => rfl
  unfold sendQueryStart
  simp only [hq', Bool.false_eq_true, if_false]
  refine ⟨_, _, rfl, ?_, rfl, rfl⟩
  simp only
  rw [addMessageToChat_chat html clock (js "agent") (js "Thinking...") st.queryType true _
    (by decide) hasClass_agent ?_]
  · simp only
    rw [addMessageToChat_chat html clock (js "user") (trim st.queryValue) st.queryType false _
      (by decide) hasClass_user ?_]
    · simp only [if_true, Bool.false_eq_true, if_false, thinking_text]
      rfl
    · simp only [Bool.false_eq_true, if_false]
      exact hquery
  · simp only [if_true, thinking_text]
    exact hthinking

/-- C6, amended: take an accepted query and a response body whose `error` field
is a non-empty string `e`, in a session whose message ids are below the id
supply, whose thread holds no element of class `chat-system` but, possibly, a
welcome message at its head, and where the parser finds no element of class
`chat-system` in the markup of the three messages written (the query, the
placeholder, the error) and none of class `log-info` in the log entry of the
query.  Then the thread at the suspension ends with the "Thinking..."
placeholder, and after `sendQuery` has handled the response: the conversation
history is as the submission left it; the thread is the one before the
placeholder followed by exactly one agent message whose text is `Error: ` and
`e` with line feeds written `<br>`; the log has exactly one more entry, on
top, from `System` to `User` with class `log-entry log-error` and the message
`Error: ` and `e` cut at 300 units, the log cut at 100 entries; the send button
is enabled again. -/
theorem sendQuery_error_response (html : Markup) (sentAt doneAt : Clock) (st : Session)
    (result : ResponseBody) (e : JSString)
    (hq : trim st.queryValue ≠ [])
    (hfresh : ∀ n ∈ st.chat, ∀ i, n.id = some i → i < st.nextId)
    (herr : result.error = some e) (hne : e ≠ [])
    (hhead : ∀ n, st.chat.head? = some n →
      hasClass (js "chat-system") n.className = true ∨ Quiet html (js "chat-system") n)
    (htail : ∀ n ∈ st.chat.tail, Quiet html (js "chat-system") n)
    (hquery : html.declares (js "chat-system")
      (messageMarkup sentAt (js "user") st.nextId (nlToBr (trim st.queryValue))) = false)
    (hthinking : html.declares (js "chat-system")
      (messageMarkup sentAt (js "agent") (st.nextId + 1) (js "<em>Thinking...</em>")) = false)
    (hshown : html.declares (js "chat-system")
      (messageMarkup doneAt (js "agent") (st.nextId + 2) (nlToBr (js "Error: " ++ e))) = false)
    (hlogged : html.declares (js "log-info")
      (logMarkup sentAt.hourMinuteSecond (formatName (js "user"))
        (formatName (js "orchestrator")) (displayMessage (trim st.queryValue))) = false) :
    ∃ st1 request pending before thinking shown,
      sendQueryStart html sentAt st = some (st1, request, pending) ∧
      st1.chat = before ++ [thinking] ∧
      thinking.innerHTML =
        js "\n        <div class=\"message-avatar\">🤖</div>\n        <div class=\"message-content\">\n            <div class=\"message-header\">\n                <span class=\"message-sender\">Orchestrator</span>\n                <span class=\"message-time\">" ++
          sentAt.hourMinute ++
          js "</span>\n            </div>\n            <div class=\"message-text\">" ++
          js "<em>Thinking...</em>" ++
          js "</div>\n            <div class=\"followups\" id=\"followups-msg-" ++
          js (toString (st.nextId + 1)) ++ js "\"></div>\n        </div>\n    " ∧
      (sendQueryFinish html doneAt pending (.body result) st1).conversationHistory =
        st1.conversationHistory ∧
      (sendQueryFinish html doneAt pending (.body result) st1).chat = before ++ [shown] ∧
      shown.className = js "chat-message chat-agent" ∧
      shown.innerHTML =
        js "\n        <div class=\"message-avatar\">🤖</div>\n        <div class=\"message-content\">\n            <div class=\"message-header\">\n                <span class=\"message-sender\">Orchestrator</span>\n                <span class=\"message-time\">" ++
          doneAt.hourMinute ++
          js "</span>\n            </div>\n            <div class=\"message-text\">" ++
          (js "Error: " ++ e.flatMap (fun c => if c = 10 then js "<br>" else [c])) ++
          js "</div>\n            <div class=\"followups\" id=\"followups-msg-" ++
          js (toString (st.nextId + 2)) ++ js "\"></div>\n        </div>\n    " ∧
      (sendQueryFinish html doneAt pending (.body result) st1).log =
        st1.log.map (fun children =>
          ((⟨none, js "log-entry log-error",
            js "\n        <div class=\"log-timestamp\">" ++ doneAt.hourMinuteSecond ++
              js "</div>\n        <div class=\"log-content\">\n            <span class=\"log-from\">System</span>\n            <span class=\"log-arrow\">→</span>\n            <span class=\"log-to\">User</span>\n            <span class=\"log-message\">" ++
              (if (js "Error: " ++ e).length > 300 then (js "Error: " ++ e).take 300 ++ js "..."
                else js "Error: " ++ e) ++
              js "</span>\n        </div>\n    "⟩ : Element) :: children).take 100) ∧
      (sendQueryFinish html doneAt pending (.body result) st1).sendDisabled = false := by
  obtain ⟨st1, request, hstart, hchat, hlog, hnext⟩ :=
    sendQueryStart_fields html sentAt st hq hquery hthinking
  -- the thread once the welcome message is gone
  obtain ⟨hR, hsub⟩ := removeFirstMatch_welcome html (js "chat-system") st.chat hhead htail
  have huserQuiet : Quiet html (js "chat-system")
      ⟨some st.nextId, js "chat-message chat-user",
        messageMarkup sentAt (js "user") st.nextId (nlToBr (trim st.queryValue))⟩ :=
    ⟨hasClass_user, hquery⟩
  have hbeforeQuiet : ∀ n ∈ removeFirstMatch html (js "chat-system") st.chat ++
      [(⟨some st.nextId, js "chat-message chat-user",
        messageMarkup sentAt (js "user") st.nextId (nlToBr (trim st.queryValue))⟩ : Element)],
      Quiet html (js "chat-system") n := by
    intro n hn
    rcases List.mem_append.mp hn with h | h
    · exact hR n h
    · rw [List.mem_singleton] at h
      rw [h]
      exact huserQuiet
  rw [removeFirstMatch_quiet html _ _ hbeforeQuiet] at hchat
  have htruthy : truthy e = true := by
    cases e with
    | nil => exact absurd rfl hne
    | cons c rest => rfl
  have hfin : sendQueryFinish html doneAt ⟨st.queryType, st.nextId + 1⟩ (.body result) st1 =
      { sendQueryCatch html doneAt ⟨st.queryType, st.nextId + 1⟩ e st1 with
        sendDisabled := false, sendOpacity := js "1" } := by
    simp [sendQueryFinish, herr, htruthy]
  have hremoved : removeMessage (st.nextId + 1) st1.chat =
      removeFirstMatch html (js "chat-system") st.chat ++
        [(⟨some st.nextId, js "chat-message chat-user",
          messageMarkup sentAt (js "user") st.nextId (nlToBr (trim st.queryValue))⟩ :
            Element)] := by
    rw [hchat]
    unfold removeMessage
    rw [eraseP_append_last]
    · intro x hx
      rcases List.mem_append.mp hx with h | h
      · cases hid : x.id with
        | none => simp
        | some i =>
          have := hfresh x (hsub.subset h) i hid
          simp
          omega
      · rw [List.mem_singleton] at h
        subst h
        simp
    · simp
  refine ⟨st1, request, _, _, _,
    ⟨some (st.nextId + 2), js "chat-message chat-agent",
      messageMarkup doneAt (js "agent") (st.nextId + 2) (nlToBr (js "Error: " ++ e))⟩,
    hstart, hchat, ?_, ?_, ?_, rfl, ?_, ?_, ?_⟩
  · exact agentMarkup_written sentAt (st.nextId + 1) (js "<em>Thinking...</em>")
  · rw [hfin]
    rfl
  · rw [hfin]
    simp only [sendQueryCatch]
    rw [addMessageToChat_chat html doneAt (js "agent") (js "Error: " ++ e) st.queryType false _
      (by decide) hasClass_agent ?_]
    · simp only [hremoved, hnext]
      rw [removeFirstMatch_quiet html _ _ hbeforeQuiet]
      rfl
    · simp only [hnext]
      exact hshown
  · simp only
    rw [agentMarkup_written, nlToBr_error]
    rfl
  · rw [hfin]
    simp only [sendQueryCatch]
    show addLogEntry _ _ _ _ _ _ st1.log = _
    rw [hlog]
    cases hl : st.log with
    | none => rfl
    | some children =>
      obtain ⟨rest, hrest⟩ := addLogEntry_some_head html sentAt.hourMinuteSecond (js "user")
        (js "orchestrator") (trim st.queryValue) (js "query") children
      have hqueryEntry : Quiet html (js "log-info")
          ⟨none, js "log-entry log-" ++ js "query",
            logMarkup sentAt.hourMinuteSecond (formatName (js "user"))
              (formatName (js "orchestrator")) (displayMessage (trim st.queryValue))⟩ :=
        ⟨hasClass_query, hlogged⟩
      rw [hrest, addLogEntry_head_kept html _ _ _ _ _ _ _ hqueryEntry, errorLogMarkup_written]
      rfl
  · rw [hfin]

theorem sendQuery_error_response_witness :
    trim loadedSession.queryValue ≠ [] ∧
    (∀ n ∈ loadedSession.chat, ∀ i, n.id = some i → i < loadedSession.nextId) ∧
    (errorBody (js "boom")).error = some (js "boom") ∧ js "boom" ≠ [] ∧
    (∀ n, loadedSession.chat.head? = some n →
      hasClass (js "chat-system") n.className = true ∨ Quiet plainMarkup (js "chat-system") n) ∧
    (∀ n ∈ loadedSession.chat.tail, Quiet plainMarkup (js "chat-system") n) ∧
    plainMarkup.declares (js "chat-system")
      (messageMarkup sampleClock (js "user") loadedSession.nextId
        (nlToBr (trim loadedSession.queryValue))) = false ∧
    plainMarkup.declares (js "chat-system")
      (messageMarkup sampleClock (js "agent") (loadedSession.nextId + 1)
        (js "<em>Thinking...</em>")) = false ∧
    plainMarkup.declares (js "chat-system")
      (messageMarkup sampleClock (js "agent") (loadedSession.nextId + 2)
        (nlToBr (js "Error: " ++ js "boom"))) = false ∧
    plainMarkup.declares (js "log-info")
      (logMarkup sampleClock.hourMinuteSecond (formatName (js "user"))
        (formatName (js "orchestrator")) (displayMessage (trim loadedSession.queryValue))) =
          false ∧
    ∃ st1 request pending before thinking shown,
      sendQueryStart plainMarkup sampleClock loadedSession = some (st1, request, pending) ∧
      st1.chat = before ++ [thinking] ∧
      thinking.innerHTML =
        js "\n        <div class=\"message-avatar\">🤖</div>\n        <div class=\"message-content\">\n            <div class=\"message-header\">\n                <span class=\"message-sender\">Orchestrator</span>\n                <span class=\"message-time\">" ++
          sampleClock.hourMinute ++
          js "</span>\n            </div>\n            <div class=\"message-text\">" ++
          js "<em>Thinking...</em>" ++
          js "</div>\n            <div class=\"followups\" id=\"followups-msg-" ++
          js (toString (loadedSession.nextId + 1)) ++ js "\"></div>\n        </div>\n    " ∧
      (sendQueryFinish plainMarkup sampleClock pending (.body (errorBody (js "boom")))
          st1).conversationHistory = st1.conversationHistory ∧
      (sendQueryFinish plainMarkup sampleClock pending (.body (errorBody (js "boom"))) st1).chat =
        before ++ [shown] ∧
      shown.className = js "chat-message chat-agent" ∧
      shown.innerHTML =
        js "\n        <div class=\"message-avatar\">🤖</div>\n        <div class=\"message-content\">\n            <div class=\"message-header\">\n                <span class=\"message-sender\">Orchestrator</span>\n                <span class=\"message-time\">" ++
          sampleClock.hourMinute ++
          js "</span>\n            </div>\n            <div class=\"message-text\">" ++
          (js "Error: " ++ (js "boom").flatMap (fun c => if c = 10 then js "<br>" else [c])) ++
          js "</div>\n            <div class=\"followups\" id=\"followups-msg-" ++
          js (toString (loadedSession.nextId + 2)) ++ js "\"></div>\n        </div>\n    " ∧
      (sendQueryFinish plainMarkup sampleClock pending (.body (errorBody (js "boom"))) st1).log =
        st1.log.map (fun children =>
          ((⟨none, js "log-entry log-error",
            js "\n        <div class=\"log-timestamp\">" ++ sampleClock.hourMinuteSecond ++
              js "</div>\n        <div class=\"log-content\">\n            <span class=\"log-from\">System</span>\n            <span class=\"log-arrow\">→</span>\n            <span class=\"log-to\">User</span>\n            <span class=\"log-message\">" ++
              (if (js "Error: " ++ js "boom").length > 300 then
                (js "Error: " ++ js "boom").take 300 ++ js "..."
                else js "Error: " ++ js "boom") ++
              js "</span>\n        </div>\n    "⟩ : Element) :: children).take 100) ∧
      (sendQueryFinish plainMarkup sampleClock pending (.body (errorBody (js "boom")))
          st1).sendDisabled = false :=
  ⟨by decide, by simp [loadedSession, welcomeMessage], rfl, by decide,
    fun n h => Or.inl (by simp [loadedSession] at h; subst h; decide),
    by simp [loadedSession], by decide, by decide, by decide, by decide,
    sendQuery_error_response plainMarkup sampleClock sampleClock loadedSession
      (errorBody (js "boom")) (js "boom") (by decide) (by simp [loadedSession, welcomeMessage])
      rfl (by decide) (fun n h => Or.inl (by simp [loadedSession] at h; subst h; decide))
      (by simp [loadedSession]) (by decide) (by decide) (by decide) (by decide)⟩

/-- The error `boom` after page load: the welcome message is gone, the thread
shows the query and the error, and the log holds the error entry above the
query entry, the placeholder gone. -/
theorem sendQuery_boom_scenario :
    (sendQuery plainMarkup failingSubmission
        { loadedSession with queryValue := [] }).conversationHistory =
      [⟨js "user", js "hi", js "general", 0⟩] ∧
    (sendQuery plainMarkup failingSubmission { loadedSession with queryValue := [] }).chat.map
        (fun n => (n.id, n.className, occursIn (js "Error: boom") n.innerHTML)) =
      [(some 0, js "chat-message chat-user", false),
        (some 2, js "chat-message chat-agent", true)] ∧
    (sendQuery plainMarkup failingSubmission { loadedSession with queryValue := [] }).log.map
        (fun l => l.map (fun n => (n.className, occursIn (js "Error: boom") n.innerHTML))) =
      some [(js "log-entry log-error", true), (js "log-entry log-query", false)] := by
  decide

/-- An error whose text is markup of class `chat-system`, read by the sample
reader: the error message is appended, found by the selector `.chat-system`
inside the thread, and the element holding `boom` is removed; the thread shows
`Error: ` with nothing after it. -/
theorem sendQuery_markup_error_scenario :
    (sendQuery plainMarkup markupSubmission { sampleSession with queryValue := [] }).chat.map
        (fun n => (n.className, occursIn (js "Error: ") n.innerHTML,
          occursIn (js "boom") n.innerHTML)) =
      [(js "chat-message chat-user", false, false),
        (js "chat-message chat-agent", true, false)] := by
  decide

/-! ## The fingerprint determines the `(id, content)` sequence -/

theorem hexVal_hexDigit (k : Nat) (hk : k < 16) : hexVal (hexDigit k) = k := by
  unfold hexVal hexDigit
  split <;> split <;> omega

theorem readQuoted_plain (c : Nat) (r : JSString) (h1 : c ≠ 34) (h2 : c ≠ 92) :
    readQuoted (c :: r) = (readQuoted r).map (fun p => (c :: p.1, p.2)) := by
  rw [readQuoted.eq_def]
  simp only [h1, h2, if_false]

theorem readQuoted_short (x : Nat) (r : JSString) (h : x ≠ 117) :
    readQuoted (92 :: x :: r) = (readQuoted r).map (fun p => (unescapeShort x :: p.1, p.2)) := by
  rw [readQuoted.eq_def]
  simp only [h, if_false, if_true, show (92 : Nat) ≠ 34 by decide]

theorem readQuoted_hex (h3 h2 h1 h0 : Nat) (r : JSString) :
    readQuoted (92 :: 117 :: h3 :: h2 :: h1 :: h0 :: r) =
      (readQuoted r).map (fun p =>
        ((hexVal h3 * 4096 + hexVal h2 * 256 + hexVal h1 * 16 + hexVal h0) :: p.1, p.2)) := by
  rw [readQuoted.eq_def]
  simp only [if_false, if_true, show (92 : Nat) ≠ 34 by decide]

theorem readQuoted_unicodeEscape (c : Nat) (hc : c < 65536) (t : JSString) :
    readQuoted (unicodeEscape c ++ t) = (readQuoted t).map (fun p => (c :: p.1, p.2)) := by
  have h3 := hexVal_hexDigit (c / 4096 % 16) (Nat.mod_lt _ (by decide))
  have h2 := hexVal_hexDigit (c / 256 % 16) (Nat.mod_lt _ (by decide))
  have h1 := hexVal_hexDigit (c / 16 % 16) (Nat.mod_lt _ (by decide))
  have h0 := hexVal_hexDigit (c % 16) (Nat.mod_lt _ (by decide))
  have hsum : c / 4096 % 16 * 4096 + c / 256 % 16 * 256 + c / 16 % 16 * 16 + c % 16 = c := by
    omega
  simp only [unicodeEscape, List.cons_append, List.nil_append, readQuoted_hex, h3, h2, h1, h0,
    hsum]

theorem readQuoted_quoteUnit (c : Nat) (t : JSString) :
    readQuoted (quoteUnit c ++ t) = (readQuoted t).map (fun p => (c :: p.1, p.2)) := by
  unfold quoteUnit
  split
  · subst_vars; exact readQuoted_short 98 t (by decide)
  split
  · subst_vars; exact readQuoted_short 116 t (by decide)
  split
  · subst_vars; exact readQuoted_short 110 t (by decide)
  split
  · subst_vars; exact readQuoted_short 102 t (by decide)
  split
  · subst_vars; exact readQuoted_short 114 t (by decide)
  split
  · subst_vars; exact readQuoted_short 34 t (by decide)
  split
  · subst_vars; exact readQuoted_short 92 t (by decide)
  split
  · rename_i h
    apply readQuoted_unicodeEscape
    simp only [isHighSurrogate, isLowSurrogate, Bool.and_eq_true, decide_eq_true_eq] at h
    omega
  · rename_i h1 h2 h3
    exact readQuoted_plain c t h1 h2

theorem readQuoted_quoteBody (s r : JSString) :
    readQuoted (quoteBody s ++ 34 :: r) = some (s, r) := by
  induction s using quoteBody.induct with
  | case1 => rw [quoteBody, List.nil_append, readQuoted.eq_def]; simp
  | case2 c =>
    rw [quoteBody, readQuoted_quoteUnit, readQuoted.eq_def]
    simp
  | case3 c d rest h ih =>
    rw [quoteBody, if_pos h]
    obtain ⟨hc, hd⟩ := h
    simp only [isHighSurrogate, isLowSurrogate, Bool.and_eq_true, decide_eq_true_eq] at hc hd
    rw [List.cons_append, List.cons_append, readQuoted_plain c _ (by omega) (by omega),
      readQuoted_plain d _ (by omega) (by omega), ih]
    rfl
  | case4 c d rest h ih =>
    rw [quoteBody, if_neg h, List.append_assoc, readQuoted_quoteUnit, ih]
    rfl

theorem quoteJSON_inj (s s' r r' : JSString)
    (h : quoteJSON s ++ r = quoteJSON s' ++ r') : s = s' ∧ r = r' := by
  unfold quoteJSON at h
  simp only [List.cons_append, List.append_assoc, List.singleton_append, List.cons.injEq,
    true_and, List.nil_append] at h
  have h1 := readQuoted_quoteBody s r
  rw [h, readQuoted_quoteBody] at h1
  simpa [eq_comm] using h1

theorem stringifyPair_inj (p p' : JSString × JSString) (r r' : JSString)
    (h : stringifyPair p ++ r = stringifyPair p' ++ r') : p = p' ∧ r = r' := by
  unfold stringifyPair at h
  simp only [List.append_assoc] at h
  have h1 := List.append_cancel_left h
  obtain ⟨hid, h2⟩ := quoteJSON_inj _ _ _ _ h1
  have h3 := List.append_cancel_left h2
  obtain ⟨hcontent, h4⟩ := quoteJSON_inj _ _ _ _ h3
  exact ⟨Prod.ext hid hcontent, List.append_cancel_left h4⟩

theorem stringifyPair_head (p : JSString × JSString) :
    ∃ t, stringifyPair p = 123 :: t := by
  unfold stringifyPair
  exact ⟨_, rfl⟩

theorem joinComma_cons (x : JSString) (xs : List JSString) :
    joinComma (x :: xs) = x ++ (match xs with | [] => [] | _ :: _ => 44 :: joinComma xs) := by
  cases xs with
  | nil => simp [joinComma]
  | cons y t => simp [joinComma]

theorem joinComma_inj (ps ps' : List (JSString × JSString)) (r r' : JSString)
    (h : joinComma (ps.map stringifyPair) ++ 93 :: r =
      joinComma (ps'.map stringifyPair) ++ 93 :: r') : ps = ps' := by
  induction ps generalizing ps' r r' with
  | nil =>
    cases ps' with
    | nil => rfl
    | cons p' t' =>
      obtain ⟨u, hu⟩ := stringifyPair_head p'
      rw [List.map_cons, joinComma_cons, hu] at h
      simp [joinComma] at h
  | cons p t ih =>
    cases ps' with
    | nil =>
      obtain ⟨u, hu⟩ := stringifyPair_head p
      rw [List.map_cons, joinComma_cons, hu] at h
      simp [joinComma] at h
    | cons p' t' =>
      rw [List.map_cons, List.map_cons, joinComma_cons, joinComma_cons, List.append_assoc,
        List.append_assoc] at h
      obtain ⟨hp, hrest⟩ := stringifyPair_inj _ _ _ _ h
      subst hp
      cases t with
      | nil =>
        cases t' with
        | nil => rfl
        | cons q' u' => simp at hrest
      | cons q u =>
        cases t' with
        | nil => simp at hrest
        | cons q' u' =>
          simp only [List.map_cons, List.cons_append, List.cons.injEq, true_and] at hrest
          rw [← List.map_cons, ← List.map_cons] at hrest
          rw [ih _ _ _ hrest]

/-- C4: the fingerprints of two collections are equal if and only if their
ordered sequences of `(id, content)` pairs are equal: a change in order,
membership, id or content changes the fingerprint, and the other fields of the
records play no part. -/
theorem scheduleHash_eq_iff (s s' : List ScheduleRecord) :
    scheduleHash s = scheduleHash s' ↔
      s.map (fun r => (r.id, r.content)) = s'.map (fun r => (r.id, r.content)) := by
  show scheduleHash s = scheduleHash s' ↔ s.map idContent = s'.map idContent
  constructor
  · intro h
    unfold scheduleHash stringifyPairs at h
    simp only [List.cons.injEq, true_and] at h
    exact joinComma_inj _ _ [] [] h
  · intro h
    unfold scheduleHash
    rw [h]

/-- Two collections that differ in one content only have different
fingerprints, and one more field changes nothing. -/
theorem scheduleHash_examples :
    scheduleHash [sampleRecord] ≠ scheduleHash [helloRecord] ∧
    scheduleHash [sampleRecord] = scheduleHash [sampleRecordOwned] ∧
    scheduleHash [helloRecord] =
      js "[\x7b\"id\":\"abc12345-xxxx\",\"content\":\"hello\"\x7d]" := by
  decide

/-! ## Formatter: the bullet rewrite -/

theorem isWs_ne_of_false {c : Nat} (h : isWs c = false) : c ≠ 10 ∧ c ≠ 13 ∧ c ≠ 9 ∧ c ≠ 32 := by
  refine ⟨?_, ?_, ?_, ?_⟩ <;> (intro hc; subst hc; revert h; decide)

theorem bulletGo_ws (u : JSString) : bulletGo .ws u = bulletGo .scan (u.dropWhile isWs) := by
  induction u with
  | nil => rfl
  | cons c r ih =>
    by_cases hc : isWs c = true
    · rw [bulletGo, if_pos hc, ih, List.dropWhile_cons_of_pos hc]
    · have hc' : isWs c = false := by simpa using hc
      rw [bulletGo, if_neg hc, List.dropWhile_cons_of_neg hc, bulletGo,
        if_neg (fun h => (isWs_ne_of_false hc').1 h.1)]

theorem bullets_nil : bullets [] = [] := rfl

theorem bullets_marker (rest : JSString) (h : startsMarker rest = true) :
    bullets (10 :: rest) = 10 :: 8226 :: 32 :: bullets (rest.tail.dropWhile isWs) := by
  unfold bullets
  rw [bulletGo, if_pos ⟨rfl, h⟩]
  cases rest with
  | nil => simp [startsMarker] at h
  | cons x r => rw [bulletGo, bulletGo_ws, List.tail_cons]

theorem bullets_copy (c : Nat) (rest : JSString) (h : ¬ (c = 10 ∧ startsMarker rest = true)) :
    bullets (c :: rest) = c :: bullets rest := by
  unfold bullets
  rw [bulletGo, if_neg h]

theorem bullets_head (w : JSString) : (bullets w).head? = w.head? := by
  cases w with
  | nil => rfl
  | cons c rest =>
    by_cases h : c = 10 ∧ startsMarker rest = true
    · obtain ⟨hc, hm⟩ := h
      subst hc
      rw [bullets_marker rest hm]
      rfl
    · rw [bullets_copy c rest h]
      rfl

theorem startsMarker_cons (c : Nat) (r : JSString) :
    startsMarker (c :: r) = (c == 45 && (r.head?.map isWs).getD false) := by
  cases r with
  | nil => simp [startsMarker]
  | cons d s => simp [startsMarker]

theorem startsMarker_bullets (w : JSString) : startsMarker (bullets w) = startsMarker w := by
  cases w with
  | nil => rfl
  | cons c rest =>
    by_cases h : c = 10 ∧ startsMarker rest = true
    · obtain ⟨hc, hm⟩ := h
      subst hc
      rw [bullets_marker rest hm, startsMarker_cons, startsMarker_cons]
      rfl
    · rw [bullets_copy c rest h, startsMarker_cons, startsMarker_cons, bullets_head]

theorem bullets_idem (n : Nat) : ∀ w : JSString, w.length ≤ n → bullets (bullets w) = bullets w := by
  induction n with
  | zero =>
    intro w hw
    have : w = [] := List.length_eq_zero.mp (Nat.le_zero.mp hw)
    subst this
    rfl
  | succ n ih =>
    intro w hw
    cases w with
    | nil => rfl
    | cons c rest =>
      by_cases h : c = 10 ∧ startsMarker rest = true
      · obtain ⟨hc, hm⟩ := h
        subst hc
        rw [bullets_marker rest hm]
        have hlen : (rest.tail.dropWhile isWs).length ≤ n := by
          have h1 := (List.dropWhile_sublist isWs (l := rest.tail)).length_le
          have h2 : rest.tail.length ≤ rest.length := by simp
          simp only [List.length_cons] at hw
          omega
        rw [bullets_copy 10 _ (by simp [startsMarker_cons]),
          bullets_copy 8226 _ (by simp), bullets_copy 32 _ (by simp), ih _ hlen]
      · rw [bullets_copy c rest h]
        have hlen : rest.length ≤ n := by
          simp only [List.length_cons] at hw
          omega
        rw [bullets_copy c _ (by rw [startsMarker_bullets]; exact h), ih _ hlen]

/-! ## Formatter: the newline collapse -/

theorem collapseNL_length_le (k : Nat) (w : JSString) : (collapseNL k w).length ≤ w.length := by
  induction w generalizing k with
  | nil => simp [collapseNL]
  | cons c rest ih =>
    rw [collapseNL]
    split
    · split
      · simp only [List.length_cons]
        have := ih (k + 1)
        omega
      · simp only [List.length_cons]
        have := ih k
        omega
    · simp only [List.length_cons]
      have := ih 0
      omega

theorem collapseNL_copy (k c : Nat) (rest : JSString) (hc : c ≠ 10) :
    collapseNL k (c :: rest) = c :: collapseNL 0 rest := by
  rw [collapseNL, if_neg hc]

theorem collapseNL_fix_lf (k : Nat) (rest : JSString)
    (h : collapseNL k (10 :: rest) = 10 :: rest) : k < 2 ∧ collapseNL (k + 1) rest = rest := by
  rw [collapseNL, if_pos rfl] at h
  by_cases hk : k < 2
  · rw [if_pos hk] at h
    exact ⟨hk, List.tail_eq_of_cons_eq h⟩
  · rw [if_neg hk] at h
    have h1 := collapseNL_length_le k rest
    rw [h] at h1
    simp at h1

theorem collapseNL_fix_mono (j k : Nat) (w : JSString) (hjk : j ≤ k)
    (h : collapseNL k w = w) : collapseNL j w = w := by
  induction w generalizing j k with
  | nil => rfl
  | cons c rest ih =>
    by_cases hc : c = 10
    · subst hc
      obtain ⟨hk, hrest⟩ := collapseNL_fix_lf k rest h
      rw [collapseNL, if_pos rfl, if_pos (by omega), ih (j + 1) (k + 1) (by omega) hrest]
    · rw [collapseNL_copy k c rest hc] at h
      rw [collapseNL_copy j c rest hc, List.tail_eq_of_cons_eq h]

theorem collapseNL_fix_tail (k c : Nat) (rest : JSString)
    (h : collapseNL k (c :: rest) = c :: rest) : collapseNL 0 rest = rest := by
  by_cases hc : c = 10
  · subst hc
    exact collapseNL_fix_mono 0 (k + 1) rest (Nat.zero_le _) (collapseNL_fix_lf k rest h).2
  · rw [collapseNL_copy k c rest hc] at h
    exact List.tail_eq_of_cons_eq h

theorem collapseNL_fix_dropWhile (p : Nat → Bool) (k : Nat) (u : JSString)
    (h : collapseNL k u = u) : collapseNL 0 (u.dropWhile p) = u.dropWhile p := by
  induction u generalizing k with
  | nil => rfl
  | cons c rest ih =>
    by_cases hp : p c = true
    · rw [List.dropWhile_cons_of_pos hp]
      exact ih 0 (collapseNL_fix_tail k c rest h)
    · rw [List.dropWhile_cons_of_neg hp]
      exact collapseNL_fix_mono 0 k _ (Nat.zero_le _) h

theorem collapseNL_idem (k : Nat) (w : JSString) :
    collapseNL k (collapseNL k w) = collapseNL k w := by
  induction w generalizing k with
  | nil => rfl
  | cons c rest ih =>
    by_cases hc : c = 10
    · subst hc
      by_cases hk : k < 2
      · rw [collapseNL, if_pos rfl, if_pos hk, collapseNL, if_pos rfl, if_pos hk, ih]
      · rw [collapseNL, if_pos rfl, if_neg hk, ih]
    · rw [collapseNL_copy k c rest hc, collapseNL_copy k c _ hc, ih]

theorem collapseNL_bullets (n : Nat) :
    ∀ (w : JSString) (k : Nat), w.length ≤ n → collapseNL k w = w →
      collapseNL k (bullets w) = bullets w := by
  induction n with
  | zero =>
    intro w k hw _
    have : w = [] := List.length_eq_zero.mp (Nat.le_zero.mp hw)
    subst this
    rfl
  | succ n ih =>
    intro w k hw hfix
    cases w with
    | nil => rfl
    | cons c rest =>
      simp only [List.length_cons] at hw
      by_cases h : c = 10 ∧ startsMarker rest = true
      · obtain ⟨hc, hm⟩ := h
        subst hc
        obtain ⟨hk, hrest⟩ := collapseNL_fix_lf k rest hfix
        rw [bullets_marker rest hm]
        have hlen : (rest.tail.dropWhile isWs).length ≤ n := by
          have h1 := (List.dropWhile_sublist isWs (l := rest.tail)).length_le
          have h2 : rest.tail.length ≤ rest.length := by simp
          omega
        have htail : collapseNL 0 rest.tail = rest.tail := by
          cases rest with
          | nil => rfl
          | cons d s => exact collapseNL_fix_tail (k + 1) d s hrest
        have hdrop := collapseNL_fix_dropWhile isWs 0 rest.tail htail
        rw [collapseNL, if_pos rfl, if_pos hk, collapseNL_copy _ 8226 _ (by decide),
          collapseNL_copy _ 32 _ (by decide), ih _ 0 hlen hdrop]
      · rw [bullets_copy c rest h]
        by_cases hc : c = 10
        · subst hc
          obtain ⟨hk, hrest⟩ := collapseNL_fix_lf k rest hfix
          rw [collapseNL, if_pos rfl, if_pos hk, ih rest (k + 1) (by omega) hrest]
        · rw [collapseNL_copy k c _ hc, ih rest 0 (by omega) (collapseNL_fix_tail k c rest hfix)]

theorem capitalizeFirst_cons (c : Nat) (rest : JSString) :
    ∃ c', capitalizeFirst (c :: rest) = c' :: rest ∧ (c' = c ∨ (65 ≤ c' ∧ c' ≤ 90)) := by
  by_cases h : 97 ≤ c ∧ c ≤ 122
  · exact ⟨c - 32, by rw [capitalizeFirst, if_pos h], Or.inr (by omega)⟩
  · exact ⟨c, by rw [capitalizeFirst, if_neg h], Or.inl rfl⟩

theorem collapseNL_capitalizeFirst (w : JSString) (h : collapseNL 0 w = w) :
    collapseNL 0 (capitalizeFirst w) = capitalizeFirst w := by
  cases w with
  | nil => rfl
  | cons c rest =>
    obtain ⟨c', hc', hor⟩ := capitalizeFirst_cons c rest
    rw [hc']
    rcases hor with hsame | hup
    · rw [hsame]; exact h
    · rw [collapseNL_copy 0 c' rest (by omega), collapseNL_fix_tail 0 c rest h]

theorem bullets_capitalizeFirst (w : JSString) (h : bullets w = w) :
    bullets (capitalizeFirst w) = capitalizeFirst w := by
  cases w with
  | nil => rfl
  | cons c rest =>
    obtain ⟨c', hc', hor⟩ := capitalizeFirst_cons c rest
    rw [hc']
    rcases hor with hsame | hup
    · rw [hsame]; exact h
    · have hrest : bullets rest = rest := by
        by_cases hm : c = 10 ∧ startsMarker rest = true
        · obtain ⟨hc, hm⟩ := hm
          subst hc
          rw [bullets_marker rest hm] at h
          have h2 := List.tail_eq_of_cons_eq h
          cases rest with
          | nil => simp [startsMarker] at hm
          | cons d s =>
            have h3 := List.head_eq_of_cons_eq h2
            subst h3
            simp [startsMarker_cons] at hm
        · rw [bullets_copy c rest hm] at h
          exact List.tail_eq_of_cons_eq h
      rw [bullets_copy c' rest (by omega), hrest]

theorem capitalizeFirst_idem (w : JSString) :
    capitalizeFirst (capitalizeFirst w) = capitalizeFirst w := by
  cases w with
  | nil => rfl
  | cons c rest =>
    by_cases h : 97 ≤ c ∧ c ≤ 122
    · rw [capitalizeFirst, if_pos h, capitalizeFirst, if_neg (by omega)]
    · rw [capitalizeFirst, if_neg h, capitalizeFirst, if_neg h]

/-! ## Formatter: what the stages leave at the ends and which units they write -/

theorem trim_head (text : JSString) (c : Nat) (h : (trim text).head? = some c) :
    isWs c = false := by
  unfold trim at h
  have hp : (text.dropWhile isWs).rdropWhile isWs <+: text.dropWhile isWs :=
    List.rdropWhile_prefix isWs _
  obtain ⟨t, ht⟩ := hp
  have hnot := List.head?_dropWhile_not isWs text
  cases hr : (text.dropWhile isWs).rdropWhile isWs with
  | nil => rw [hr] at h; simp at h
  | cons d r =>
    rw [hr] at h ht
    simp only [List.head?_cons, Option.some.injEq] at h
    subst h
    rw [← ht] at hnot
    simpa using hnot

theorem trim_last (text : JSString) (c : Nat) (h : (trim text).getLast? = some c) :
    isWs c = false := by
  unfold trim at h
  have hne : (text.dropWhile isWs).rdropWhile isWs ≠ [] := by
    intro h0
    rw [h0] at h
    simp at h
  have hnot := List.rdropWhile_last_not isWs (text.dropWhile isWs) hne
  rw [List.getLast?_eq_getLast _ hne] at h
  simp only [Option.some.injEq] at h
  rw [h] at hnot
  simpa using hnot

theorem trim_eq_self (w : JSString) (hh : ∀ c, w.head? = some c → isWs c = false)
    (hl : ∀ c, w.getLast? = some c → isWs c = false) : trim w = w := by
  have h1 : w.dropWhile isWs = w := by
    cases w with
    | nil => rfl
    | cons c r =>
      have := hh c rfl
      rw [List.dropWhile_cons_of_neg (by simp [this])]
  unfold trim
  rw [h1, List.rdropWhile_eq_self_iff]
  intro hne
  have := hl _ (List.getLast?_eq_getLast w hne)
  simp [this]

theorem dropWhile_concat (p : Nat → Bool) (u : JSString) (c : Nat) (hc : p c = false) :
    (u ++ [c]).dropWhile p = u.dropWhile p ++ [c] := by
  induction u with
  | nil => simp [List.dropWhile, hc]
  | cons d r ih =>
    by_cases hd : p d = true
    · rw [List.cons_append, List.dropWhile_cons_of_pos hd, List.dropWhile_cons_of_pos hd, ih]
    · rw [List.cons_append, List.dropWhile_cons_of_neg hd, List.dropWhile_cons_of_neg hd,
        List.cons_append]

theorem startsMarker_concat (rest : JSString) (c : Nat) (hc : isWs c = false) :
    startsMarker (rest ++ [c]) = startsMarker rest := by
  cases rest with
  | nil => rfl
  | cons x r =>
    cases r with
    | nil => simp [startsMarker, hc]
    | cons v s => rfl

theorem bullets_concat (n : Nat) :
    ∀ (w : JSString) (c : Nat), w.length ≤ n → isWs c = false →
      bullets (w ++ [c]) = bullets w ++ [c] := by
  induction n with
  | zero =>
    intro w c hw hc
    have : w = [] := List.length_eq_zero.mp (Nat.le_zero.mp hw)
    subst this
    exact bullets_copy c [] (fun h => (isWs_ne_of_false hc).1 h.1)
  | succ n ih =>
    intro w c hw hc
    cases w with
    | nil => exact bullets_copy c [] (fun h => (isWs_ne_of_false hc).1 h.1)
    | cons d rest =>
      simp only [List.length_cons] at hw
      rw [List.cons_append]
      by_cases h : d = 10 ∧ startsMarker rest = true
      · obtain ⟨hd, hm⟩ := h
        subst hd
        have hm' : startsMarker (rest ++ [c]) = true := by rw [startsMarker_concat rest c hc, hm]
        have hlen : (rest.tail.dropWhile isWs).length ≤ n := by
          have h1 := (List.dropWhile_sublist isWs (l := rest.tail)).length_le
          have h2 : rest.tail.length ≤ rest.length := by simp
          omega
        have htail : (rest ++ [c]).tail = rest.tail ++ [c] := by
          cases rest with
          | nil => simp [startsMarker] at hm
          | cons x r => rfl
        rw [bullets_marker _ hm', bullets_marker _ hm, htail, dropWhile_concat isWs _ c hc,
          ih _ c hlen hc]
        rfl
      · have h' : ¬ (d = 10 ∧ startsMarker (rest ++ [c]) = true) := by
          rw [startsMarker_concat rest c hc]
          exact h
        rw [bullets_copy d _ h', bullets_copy d _ h, ih rest c (by omega) hc]
        rfl

theorem collapseNL_concat (k : Nat) (w : JSString) (c : Nat) (hc : c ≠ 10) :
    collapseNL k (w ++ [c]) = collapseNL k w ++ [c] := by
  induction w generalizing k with
  | nil => simp [collapseNL, hc]
  | cons d r ih =>
    rw [List.cons_append, collapseNL, collapseNL]
    split
    · split
      · rw [ih]; rfl
      · rw [ih]
    · rw [ih]; rfl

theorem collapseNL_head (w : JSString) : (collapseNL 0 w).head? = w.head? := by
  cases w with
  | nil => rfl
  | cons c r =>
    rw [collapseNL]
    split
    · rename_i h
      subst h
      rfl
    · rfl

theorem mem_collapseNL (k : Nat) (w : JSString) (x : Nat) (h : x ∈ collapseNL k w) : x ∈ w := by
  induction w generalizing k with
  | nil => simp [collapseNL] at h
  | cons c r ih =>
    rw [collapseNL] at h
    split at h
    · rename_i hc
      subst hc
      split at h
      · rcases List.mem_cons.mp h with h1 | h1
        · rw [h1]; exact List.mem_cons_self _ _
        · exact List.mem_cons_of_mem _ (ih _ h1)
      · exact List.mem_cons_of_mem _ (ih _ h)
    · rcases List.mem_cons.mp h with h1 | h1
      · rw [h1]; exact List.mem_cons_self _ _
      · exact List.mem_cons_of_mem _ (ih _ h1)

theorem mem_bullets (n : Nat) :
    ∀ (w : JSString) (x : Nat), w.length ≤ n → x ∈ bullets w → x ∈ w ∨ x = 8226 ∨ x = 32 := by
  induction n with
  | zero =>
    intro w x hw hx
    have : w = [] := List.length_eq_zero.mp (Nat.le_zero.mp hw)
    subst this
    simp [bullets_nil] at hx
  | succ n ih =>
    intro w x hw hx
    cases w with
    | nil => simp [bullets_nil] at hx
    | cons d rest =>
      simp only [List.length_cons] at hw
      by_cases h : d = 10 ∧ startsMarker rest = true
      · obtain ⟨hd, hm⟩ := h
        subst hd
        have hsub : List.Sublist (rest.tail.dropWhile isWs) rest :=
          (List.dropWhile_sublist isWs).trans (List.tail_sublist rest)
        rw [bullets_marker _ hm] at hx
        simp only [List.mem_cons] at hx
        rcases hx with h1 | h1 | h1 | h1
        · exact Or.inl (by rw [h1]; exact List.mem_cons_self _ _)
        · exact Or.inr (Or.inl h1)
        · exact Or.inr (Or.inr h1)
        · rcases ih _ x (by have := hsub.length_le; omega) h1 with h2 | h2
          · exact Or.inl (List.mem_cons_of_mem _ (hsub.subset h2))
          · exact Or.inr h2
      · rw [bullets_copy d _ h] at hx
        rcases List.mem_cons.mp hx with h1 | h1
        · exact Or.inl (by rw [h1]; exact List.mem_cons_self _ _)
        · rcases ih rest x (by omega) h1 with h2 | h2
          · exact Or.inl (List.mem_cons_of_mem _ h2)
          · exact Or.inr h2

theorem mem_capitalizeFirst (w : JSString) (x : Nat) (h : x ∈ capitalizeFirst w) :
    x ∈ w ∨ (65 ≤ x ∧ x ≤ 90) := by
  cases w with
  | nil => simp [capitalizeFirst] at h
  | cons c rest =>
    obtain ⟨c', hc', hor⟩ := capitalizeFirst_cons c rest
    rw [hc'] at h
    rcases List.mem_cons.mp h with h1 | h1
    · rcases hor with h2 | h2
      · exact Or.inl (by rw [h1, h2]; exact List.mem_cons_self _ _)
      · exact Or.inr (by rw [h1]; exact h2)
    · exact Or.inl (List.mem_cons_of_mem _ h1)

/-! ## Formatter: formatting twice -/

theorem isWs_upper (c : Nat) (h : 65 ≤ c ∧ c ≤ 90) : isWs c = false := by
  unfold isWs
  simp only [Bool.or_eq_false_iff, Bool.and_eq_false_iff, beq_eq_false_iff_ne, ne_eq,
    decide_eq_false_iff_not]
  omega

theorem head_stage (X : JSString → JSString) (hnil : X [] = [])
    (hhead : ∀ c r, isWs c = false → (X (c :: r)).head? = some c) (w : JSString)
    (hw : ∀ c, w.head? = some c → isWs c = false) :
    ∀ c, (X w).head? = some c → isWs c = false := by
  intro c hc
  cases w with
  | nil => rw [hnil] at hc; simp at hc
  | cons d r =>
    have hd := hw d rfl
    rw [hhead d r hd] at hc
    simp only [Option.some.injEq] at hc
    rw [← hc]
    exact hd

theorem last_stage (X : JSString → JSString) (hnil : X [] = [])
    (hconcat : ∀ w c, isWs c = false → X (w ++ [c]) = X w ++ [c]) (w : JSString)
    (hw : ∀ c, w.getLast? = some c → isWs c = false) :
    ∀ c, (X w).getLast? = some c → isWs c = false := by
  intro c hc
  rcases List.eq_nil_or_concat w with h | ⟨init, d, h⟩
  · subst h
    rw [hnil] at hc
    simp at hc
  · rw [List.concat_eq_append] at h
    subst h
    have hd := hw d (List.getLast?_concat init)
    rw [hconcat init d hd, List.getLast?_concat] at hc
    simp only [Option.some.injEq] at hc
    rw [← hc]
    exact hd

theorem normalise_head (text : JSString) :
    ∀ c, (normalise text).head? = some c → isWs c = false := by
  have h0 := trim_head text
  have h1 := head_stage stripCR rfl
    (fun c r hc => by simp [stripCR, List.filter_cons, (isWs_ne_of_false hc).2.1]) _ h0
  have h2 := head_stage tabsToSpaces rfl
    (fun c r hc => by simp [tabsToSpaces, (isWs_ne_of_false hc).2.2.1]) _ h1
  have h3 := head_stage collapseNewlines rfl
    (fun c r _ => by unfold collapseNewlines; rw [collapseNL_head]; rfl) _ h2
  have h4 := head_stage bullets rfl (fun c r _ => by rw [bullets_head]; rfl) _ h3
  intro c hc
  unfold normalise at hc
  cases hz : bullets (collapseNewlines (tabsToSpaces (stripCR (trim text)))) with
  | nil => rw [hz] at hc; simp [capitalizeFirst] at hc
  | cons d r =>
    rw [hz] at hc h4
    obtain ⟨d', hd', hor⟩ := capitalizeFirst_cons d r
    rw [hd'] at hc
    simp only [List.head?_cons, Option.some.injEq] at hc
    subst hc
    rcases hor with h | h
    · rw [h]; exact h4 d rfl
    · exact isWs_upper _ h

theorem normalise_last (text : JSString) :
    ∀ c, (normalise text).getLast? = some c → isWs c = false := by
  have h0 := trim_last text
  have h1 := last_stage stripCR rfl
    (fun w c hc => by simp [stripCR, List.filter_append, (isWs_ne_of_false hc).2.1]) _ h0
  have h2 := last_stage tabsToSpaces rfl
    (fun w c hc => by simp [tabsToSpaces, (isWs_ne_of_false hc).2.2.1]) _ h1
  have h3 := last_stage collapseNewlines rfl
    (fun w c hc => collapseNL_concat 0 w c (isWs_ne_of_false hc).1) _ h2
  have h4 := last_stage bullets rfl (fun w c hc => bullets_concat _ w c le_rfl hc) _ h3
  intro c hc
  unfold normalise at hc
  cases hz : bullets (collapseNewlines (tabsToSpaces (stripCR (trim text)))) with
  | nil => rw [hz] at hc; simp [capitalizeFirst] at hc
  | cons d r =>
    rw [hz] at hc h4
    obtain ⟨d', hd', hor⟩ := capitalizeFirst_cons d r
    rw [hd'] at hc
    cases r with
    | nil =>
      simp only [List.getLast?_singleton, Option.some.injEq] at hc
      subst hc
      rcases hor with h | h
      · rw [h]; exact h4 d rfl
      · exact isWs_upper _ h
    | cons e s =>
      apply h4 c
      rw [List.getLast?_cons_cons] at hc ⊢
      exact hc

theorem normalise_units (text : JSString) (x : Nat) (hx : x ∈ normalise text) :
    x ≠ 13 ∧ x ≠ 9 := by
  unfold normalise at hx
  have hbase : ∀ y, y ∈ collapseNewlines (tabsToSpaces (stripCR (trim text))) →
      y ≠ 13 ∧ y ≠ 9 := by
    intro y hy
    have hy2 := mem_collapseNL 0 _ y hy
    simp only [tabsToSpaces, stripCR, List.mem_map, List.mem_filter, bne_iff_ne] at hy2
    obtain ⟨a, ⟨_, ha13⟩, hay⟩ := hy2
    by_cases ha : a = 9
    · rw [if_pos ha] at hay
      omega
    · rw [if_neg ha] at hay
      omega
  rcases mem_capitalizeFirst _ x hx with h | h
  · rcases mem_bullets _ _ x le_rfl h with h1 | h1 | h1
    · exact hbase x h1
    · omega
    · omega
  · omega

theorem normalise_idem (text : JSString) : normalise (normalise text) = normalise text := by
  have htrim := trim_eq_self _ (normalise_head text) (normalise_last text)
  have hcr : stripCR (normalise text) = normalise text := by
    unfold stripCR
    rw [List.filter_eq_self]
    intro x hx
    simpa using (normalise_units text x hx).1
  have htab : tabsToSpaces (normalise text) = normalise text := by
    unfold tabsToSpaces
    conv_rhs => rw [← List.map_id (normalise text)]
    apply List.map_congr_left
    intro x hx
    rw [if_neg (normalise_units text x hx).2]
    rfl
  have hnl : collapseNewlines (normalise text) = normalise text := by
    unfold normalise collapseNewlines
    apply collapseNL_capitalizeFirst
    apply collapseNL_bullets _ _ 0 le_rfl
    exact collapseNL_idem 0 _
  have hb : bullets (normalise text) = normalise text := by
    unfold normalise
    apply bullets_capitalizeFirst
    exact bullets_idem _ _ le_rfl
  have hcap : capitalizeFirst (normalise text) = normalise text := by
    unfold normalise
    exact capitalizeFirst_idem _
  have hstep : normalise (normalise text) =
      capitalizeFirst (bullets (collapseNewlines (tabsToSpaces (stripCR
        (trim (normalise text)))))) := rfl
  rw [hstep, htrim, hcr, htab, hnl, hb, hcap]

/-- C8: for a text that `formatAgentResponse` does not truncate (its normalised
form is at most 1500 characters long), formatting twice gives the same string
as formatting once. -/
theorem formatAgentResponse_idem (text : JSString) (h : (normalise text).length ≤ 1500) :
    formatAgentResponse (formatAgentResponse text) = formatAgentResponse text := by
  have htr : truncate (normalise text) = normalise text := by
    unfold truncate
    rw [if_neg (by omega)]
  by_cases he : text.isEmpty = true
  · have h1 : formatAgentResponse text = [] := by
      unfold formatAgentResponse
      rw [if_pos he]
    rw [h1]
    rfl
  · have h1 : formatAgentResponse text = normalise text := by
      unfold formatAgentResponse
      rw [if_neg he, htr]
    rw [h1]
    unfold formatAgentResponse
    by_cases h0 : (normalise text).isEmpty = true
    · rw [if_pos h0]
      exact (List.isEmpty_iff.mp h0).symm
    · rw [if_neg h0, normalise_idem, htr]

theorem formatAgentResponse_idem_witness :
    (normalise (js "  here is the plan:\r\n\n\n\n- first\tstep\n-  second step ")).length ≤ 1500 ∧
    formatAgentResponse
        (formatAgentResponse (js "  here is the plan:\r\n\n\n\n- first\tstep\n-  second step ")) =
      formatAgentResponse (js "  here is the plan:\r\n\n\n\n- first\tstep\n-  second step ") :=
  ⟨by decide, formatAgentResponse_idem _ (by decide)⟩

theorem formatAgentResponse_sample :
    formatAgentResponse (js "  here is the plan:\r\n\n\n\n- first\tstep\n-  second step ") =
      js "Here is the plan:\n\n• first step\n• second step" := by
  decide

/-- C10, the code at a failing input: in `"- a\n- b"` both lines begin with a
hyphen-bullet marker, and only the second comes out with the bullet glyph: the
pattern `/\n-\s+/` needs a line feed before the hyphen. -/
theorem formatAgentResponse_first_line_hyphen :
    formatAgentResponse (js "- a\n- b") = js "- a\n• b" := by
  decide

theorem formatAgentResponse_swallowed_marker :
    formatAgentResponse (js "x\n- \n- y") = js "X\n• - y" := by
  decide



/-! ## The log under kinds other than `info` -/

theorem take_append_take {α : Type} (n : Nat) (a b : List α) :
    (a ++ b.take n).take n = (a ++ b).take n := by
  rw [List.take_append_eq_append_take, List.take_append_eq_append_take, List.take_take]
  congr 2
  omega

theorem addLogEntry_no_info (html : Markup) (call : LogCall) (children : List Element)
    (hchildren : ∀ n ∈ children, Quiet html (js "log-info") n) :
    addLogEntry html call.timestamp call.fromName call.toName call.message call.type
        (some children) =
      some ((entryOf call :: children).take 100) := by
  unfold addLogEntry
  simp only [querySelectorFinds_quiet html _ children hchildren, Bool.false_eq_true, false_and,
    if_false, evictOldest_eq_take]
  rfl

theorem addLogEntry_placeholder (html : Markup) (call : LogCall) (p : Element)
    (hp : hasClass (js "log-info") p.className = true) :
    addLogEntry html call.timestamp call.fromName call.toName call.message call.type
        (some [p]) =
      some [entryOf call] := by
  have hfind : querySelectorFinds html (js "log-info") [p] = true := by
    simp [querySelectorFinds, holdsMatch, hp]
  unfold addLogEntry
  simp only [hfind, List.length_singleton, and_self, if_true, evictOldest_eq_take]
  rw [removeFirstMatch, if_pos hp]
  rfl

theorem addLogEntries_no_info (html : Markup) (calls : List LogCall) (children : List Element)
    (hcalls : ∀ c ∈ calls, Quiet html (js "log-info") (entryOf c))
    (hchildren : ∀ n ∈ children, Quiet html (js "log-info") n) (hlen : children.length ≤ 100) :
    addLogEntries html calls (some children) =
      some (((calls.reverse.map entryOf) ++ children).take 100) := by
  induction calls generalizing children with
  | nil =>
    simp only [addLogEntries, List.foldl_nil, List.reverse_nil, List.map_nil, List.nil_append]
    rw [List.take_of_length_le hlen]
  | cons c cs ih =>
    have hc := hcalls c (List.mem_cons_self _ _)
    have hcs : ∀ d ∈ cs, Quiet html (js "log-info") (entryOf d) :=
      fun d hd => hcalls d (List.mem_cons_of_mem _ hd)
    have hnext : ∀ n ∈ (entryOf c :: children).take 100, Quiet html (js "log-info") n := by
      intro n hn
      rcases List.mem_cons.mp (List.mem_of_mem_take hn) with h | h
      · rw [h]; exact hc
      · exact hchildren n h
    have hnextlen : ((entryOf c :: children).take 100).length ≤ 100 := by
      rw [List.length_take]
      omega
    unfold addLogEntries at ih ⊢
    rw [List.foldl_cons, addLogEntry_no_info html c children hchildren, ih _ hcs hnext hnextlen,
      take_append_take]
    simp

/-- From an empty log, or from the log holding the placeholder alone, `n` calls
of `addLogEntry` none of which builds an entry in which the selector
`.log-info` finds an element (neither the entry nor an element of its content)
leave the `min(n, 100)` most recent entries, most recent first. -/
theorem addLogEntries_recent (html : Markup) (calls : List LogCall)
    (hcalls : ∀ c ∈ calls, Quiet html (js "log-info") (entryOf c)) :
    addLogEntries html calls (some []) = some ((calls.reverse.map entryOf).take 100) ∧
    (calls ≠ [] →
      addLogEntries html calls (some [logPlaceholder]) =
        some ((calls.reverse.map entryOf).take 100)) ∧
    ((calls.reverse.map entryOf).take 100).length = min calls.length 100 := by
  refine ⟨?_, ?_, ?_⟩
  · rw [addLogEntries_no_info html calls [] hcalls (by simp) (by simp)]
    simp
  · intro hne
    cases calls with
    | nil => exact absurd rfl hne
    | cons c cs =>
      have hc := hcalls c (List.mem_cons_self _ _)
      have hcs : ∀ d ∈ cs, Quiet html (js "log-info") (entryOf d) :=
        fun d hd => hcalls d (List.mem_cons_of_mem _ hd)
      have hstep : addLogEntries html (c :: cs) (some [logPlaceholder]) =
          addLogEntries html cs (some [entryOf c]) := by
        unfold addLogEntries
        rw [List.foldl_cons, addLogEntry_placeholder html c logPlaceholder (by decide)]
      rw [hstep, addLogEntries_no_info html cs [entryOf c] hcs (by simpa using hc) (by simp)]
      simp
  · simp [min_comm]


/-! ## Formatter: the markers that are rewritten -/

theorem dropWhile_append_all (p : Nat → Bool) (w l : JSString) (hw : ∀ c ∈ w, p c = true) :
    (w ++ l).dropWhile p = l.dropWhile p := by
  induction w with
  | nil => rfl
  | cons c r ih =>
    rw [List.cons_append, List.dropWhile_cons_of_pos (hw c (List.mem_cons_self _ _)),
      ih (fun d hd => hw d (List.mem_cons_of_mem _ hd))]

theorem dropWhile_append_some (p : Nat → Bool) (w l : JSString)
    (hw : ∃ c ∈ w, p c = false) : (w ++ l).dropWhile p = w.dropWhile p ++ l := by
  induction w with
  | nil => simp at hw
  | cons c r ih =>
    by_cases hc : p c = true
    · obtain ⟨d, hd, hpd⟩ := hw
      have hr : ∃ c ∈ r, p c = false := by
        rcases List.mem_cons.mp hd with h | h
        · rw [h, hc] at hpd
          simp at hpd
        · exact ⟨d, h, hpd⟩
      rw [List.cons_append, List.dropWhile_cons_of_pos hc, List.dropWhile_cons_of_pos hc, ih hr]
    · rw [List.cons_append, List.dropWhile_cons_of_neg hc, List.dropWhile_cons_of_neg hc,
        List.cons_append]

theorem startsMarker_append (rest more : JSString) (h : startsMarker rest = true) :
    startsMarker (rest ++ more) = true := by
  cases rest with
  | nil => simp [startsMarker] at h
  | cons x r =>
    cases r with
    | nil => simp [startsMarker] at h
    | cons v s => exact h

/-- A marker (line feed, hyphen, white space `w`) followed by text that starts
with a non-white-space unit is rewritten to a line feed, the bullet glyph and
one space, provided the text `a` before it does not end in a marker of its own
followed by white space only (whose match would take this line feed).  The scan
goes on with the text after the marker. -/
theorem bullets_marker_rewritten (n : Nat) :
    ∀ (a w l : JSString), a.length ≤ n →
      (∀ a' u, a = a' ++ 10 :: 45 :: u → ∃ c ∈ u, isWs c = false) →
      w ≠ [] → (∀ c ∈ w, isWs c = true) → (∀ c, l.head? = some c → isWs c = false) →
      bullets (a ++ 10 :: 45 :: (w ++ l)) = bullets a ++ 10 :: 8226 :: 32 :: bullets l := by
  induction n with
  | zero =>
    intro a w l ha _ hw hws hl
    have : a = [] := List.length_eq_zero.mp (Nat.le_zero.mp ha)
    subst this
    have hm : startsMarker (45 :: (w ++ l)) = true := by
      cases w with
      | nil => exact absurd rfl hw
      | cons v s => simpa [startsMarker] using hws v (List.mem_cons_self _ _)
    have hdrop : (w ++ l).dropWhile isWs = l := by
      rw [dropWhile_append_all isWs w l hws]
      cases l with
      | nil => rfl
      | cons c r => rw [List.dropWhile_cons_of_neg (by simp [hl c rfl])]
    rw [List.nil_append, bullets_marker _ hm, List.tail_cons, hdrop]
    rfl
  | succ n ih =>
    intro a w l ha hfree hw hws hl
    cases a with
    | nil => exact ih [] w l (Nat.zero_le _) hfree hw hws hl
    | cons d rest =>
      simp only [List.length_cons] at ha
      have hrest : ∀ a' u, rest = a' ++ 10 :: 45 :: u → ∃ c ∈ u, isWs c = false := by
        intro a' u h
        exact hfree (d :: a') u (by rw [h]; rfl)
      rw [List.cons_append]
      by_cases h : d = 10 ∧ startsMarker (rest ++ 10 :: 45 :: (w ++ l)) = true
      · obtain ⟨hd, hm⟩ := h
        subst hd
        cases rest with
        | nil => simp [startsMarker] at hm
        | cons x r2 =>
          have hx : x = 45 := by
            rw [List.cons_append, startsMarker_cons] at hm
            simp only [Bool.and_eq_true, beq_iff_eq] at hm
            exact hm.1
          subst hx
          obtain ⟨c, hc, hcws⟩ := hfree [] r2 rfl
          have hm2 : startsMarker (45 :: r2) = true := by
            cases r2 with
            | nil => simp at hc
            | cons v s => exact hm
          have hlen : (r2.dropWhile isWs).length ≤ n := by
            have h1 := (List.dropWhile_sublist isWs (l := r2)).length_le
            simp only [List.length_cons] at ha
            omega
          have hsuffix : ∀ a' u, r2.dropWhile isWs = a' ++ 10 :: 45 :: u →
              ∃ c ∈ u, isWs c = false := by
            intro a' u h
            have hsplit := List.takeWhile_append_dropWhile isWs r2
            apply hfree (10 :: 45 :: (r2.takeWhile isWs ++ a')) u
            conv_lhs => rw [← hsplit, h]
            simp
          rw [bullets_marker _ hm, bullets_marker _ hm2, List.cons_append, List.tail_cons,
            List.tail_cons, dropWhile_append_some isWs r2 _ ⟨c, hc, hcws⟩,
            ih _ w l hlen hsuffix hw hws hl]
          rfl
      · have h' : ¬ (d = 10 ∧ startsMarker rest = true) := by
          intro hh
          exact h ⟨hh.1, startsMarker_append rest _ hh.2⟩
        rw [bullets_copy d _ h, bullets_copy d _ h', ih rest w l (by omega) hrest hw hws hl]
        rfl



/-! ## Message ids stay fresh -/

theorem removeFirstMatch_ids (html : Markup) (cls : JSString) (l : List Element) (n : Element)
    (hn : n ∈ removeFirstMatch html cls l) : ∃ m ∈ l, n.id = m.id := by
  induction l with
  | nil => simp [removeFirstMatch] at hn
  | cons c rest ih =>
    rw [removeFirstMatch] at hn
    split at hn
    · exact ⟨n, List.mem_cons_of_mem _ hn, rfl⟩
    · split at hn
      · rcases List.mem_cons.mp hn with h | h
        · exact ⟨c, List.mem_cons_self _ _, by rw [h]⟩
        · exact ⟨n, List.mem_cons_of_mem _ h, rfl⟩
      · rcases List.mem_cons.mp hn with h | h
        · exact ⟨c, List.mem_cons_self _ _, by rw [h]⟩
        · obtain ⟨m, hm, hid⟩ := ih h
          exact ⟨m, List.mem_cons_of_mem _ hm, hid⟩

theorem ids_of_mem_remove_if (html : Markup) (cls : JSString) (l : List Element) (c : Prop)
    [Decidable c] (n : Element) (hn : n ∈ (if c then removeFirstMatch html cls l else l)) :
    ∃ m ∈ l, n.id = m.id := by
  by_cases hc : c
  · rw [if_pos hc] at hn
    exact removeFirstMatch_ids html cls l n hn
  · rw [if_neg hc] at hn
    exact ⟨n, hn, rfl⟩

theorem addMessageToChat_ids (html : Markup) (clock : Clock)
    (sender message queryType : JSString) (isLoading : Bool) (st : Session) (n : Element)
    (hn : n ∈ (addMessageToChat html clock sender message queryType isLoading st).1.chat) :
    (∃ m ∈ st.chat, n.id = m.id) ∨ n.id = some st.nextId := by
  unfold addMessageToChat at hn
  simp only at hn
  obtain ⟨m, hm, hid⟩ := ids_of_mem_remove_if _ _ _ _ _ hn
  rcases List.mem_append.mp hm with h | h
  · exact Or.inl ⟨m, h, hid⟩
  · rw [List.mem_singleton] at h
    rw [hid, h]
    exact Or.inr rfl

theorem addMessageToChat_fresh (html : Markup) (clock : Clock)
    (sender message queryType : JSString) (isLoading : Bool) (st : Session) (h : FreshIds st) :
    FreshIds (addMessageToChat html clock sender message queryType isLoading st).1 := by
  intro n hn i hi
  have hnext : (addMessageToChat html clock sender message queryType isLoading st).1.nextId =
      st.nextId + 1 := rfl
  rw [hnext]
  rcases addMessageToChat_ids _ _ _ _ _ _ _ _ hn with ⟨m, hm, hid⟩ | h1
  · have := h m hm i (by rw [← hid]; exact hi)
    omega
  · rw [h1] at hi
    simp only [Option.some.injEq] at hi
    omega

theorem setFollowups_ids (html : Markup) (messageId : Nat) (chips : JSString)
    (chat : List Element) (n : Element) (hn : n ∈ setFollowups html messageId chips chat) :
    ∃ m ∈ chat, n.id = m.id := by
  induction chat with
  | nil => simp [setFollowups] at hn
  | cons c rest ih =>
    rw [setFollowups] at hn
    split at hn
    · rcases List.mem_cons.mp hn with h | h
      · refine ⟨c, List.mem_cons_self _ _, ?_⟩
        rw [h]
        split <;> rfl
      · exact ⟨n, List.mem_cons_of_mem _ h, rfl⟩
    · rcases List.mem_cons.mp hn with h | h
      · exact ⟨c, List.mem_cons_self _ _, by rw [h]⟩
      · obtain ⟨m, hm, hid⟩ := ih h
        exact ⟨m, List.mem_cons_of_mem _ hm, hid⟩

theorem sendQueryStart_fresh (html : Markup) (clock : Clock) (st st1 : Session)
    (request : Request) (pending : Pending) (h : FreshIds st)
    (hstart : sendQueryStart html clock st = some (st1, request, pending)) : FreshIds st1 := by
  by_cases hq : (trim st.queryValue).isEmpty = true
  · simp [sendQueryStart, hq] at hstart
  · simp only [sendQueryStart, hq, Bool.false_eq_true, if_false, Option.some.injEq,
      Prod.mk.injEq] at hstart
    rw [← hstart.1]
    have h0 : FreshIds { st with queryValue := [], inputHeight := js "auto" } := h
    have h1 := addMessageToChat_fresh html clock (js "user") (trim st.queryValue) st.queryType
      false _ h0
    exact addMessageToChat_fresh html clock (js "agent") (js "Thinking...") st.queryType true _ h1

theorem sendQueryFinish_fresh (html : Markup) (clock : Clock) (pending : Pending)
    (outcome : Outcome) (st : Session) (h : FreshIds st) :
    FreshIds (sendQueryFinish html clock pending outcome st) := by
  have hremoved : FreshIds { st with chat := removeMessage pending.loadingId st.chat } := by
    intro n hn i hi
    exact h n (List.mem_of_mem_eraseP hn) i hi
  have hcatch : ∀ message, FreshIds (sendQueryCatch html clock pending message st) := by
    intro message
    exact addMessageToChat_fresh html clock (js "agent") (js "Error: " ++ message)
      pending.queryType false _ hremoved
  have htry : ∀ result, FreshIds (sendQueryTry html clock pending result st) := by
    intro result
    have hlogged : FreshIds
        { st with
          chat := removeMessage pending.loadingId st.chat,
          log := result.communication_log.foldl
            (fun log entry =>
              addLogEntry html clock.hourMinuteSecond entry.fromName entry.toName entry.message
                entry.type log)
            st.log } := hremoved
    have hadded := addMessageToChat_fresh html clock (js "agent")
      (formatAgentResponse
        (orElse result.result.aggregated_response
          (orElse result.result.response (js "No response"))))
      pending.queryType false _ hlogged
    have hfollow : ∀ (messageId : Nat) (suggestions : List JSString) (s : Session),
        FreshIds s → FreshIds (renderDynamicFollowUps html messageId suggestions s) := by
      intro messageId suggestions s hs n hn i hi
      obtain ⟨m, hm, hid⟩ := setFollowups_ids _ _ _ _ n hn
      exact hs m hm i (by rw [← hid]; exact hi)
    unfold sendQueryTry
    simp only
    split
    · exact hfollow _ _ _ hadded
    · exact hfollow _ _ _ hadded
  unfold sendQueryFinish
  cases outcome with
  | failed message => exact hcatch message
  | body result =>
    simp only
    cases result.error with
    | none => exact htry result
    | some e =>
      simp only
      split
      · exact hcatch e
      · exact htry result

/-- Freshness of the message ids is kept by every submission, so it holds in
every session reached from one where it holds (a thread without ids, say). -/
theorem sendQueries_fresh (html : Markup) (subs : List Submission) (st : Session)
    (h : FreshIds st) : FreshIds (sendQueries html subs st) := by
  induction subs generalizing st with
  | nil => exact h
  | cons sub rest ih =>
    unfold sendQueries
    rw [List.foldl_cons]
    apply ih
    have h0 : FreshIds { st with queryValue := sub.text, queryType := sub.type } := h
    unfold sendQuery
    cases hstart : sendQueryStart html sub.sentAt
        { st with queryValue := sub.text, queryType := sub.type } with
    | none => exact h0
    | some r =>
      obtain ⟨st1, request, pending⟩ := r
      exact sendQueryFinish_fresh _ _ _ _ _ (sendQueryStart_fresh _ _ _ _ _ _ h0 hstart)

end Dashboard
